import Mathlib

/-!
Shallow embedding of `pkg/util/pod/stats/cri_stats_provider.go` from the
cloudpods repository: the CRI container-statistics provider.  Go machine
integers are modelled with `Nat` (uint64) and `Int` (int64); Go nil-able
pointers with `Option`; a Go nil-pointer dereference (panic) is modelled by
an `Option`-valued result where `none` means the operation faults.  The
`float64` arithmetic in the nanocore-rate computation is modelled by exact
rational arithmetic followed by truncation toward zero, which on the guarded
domain equals `Nat` division.  External collaborators (the CRI runtime
client, cAdvisor) appear as explicit inputs; repository helpers whose source
is not part of this excerpt appear as fields of an `Env` record or as
definitions marked `Modelled from the spec:`.
-/

namespace runtimeapi

/-- runtimeapi.CpuUsage: `Timestamp int64`, `UsageCoreNanoSeconds *UInt64Value`
(the wrapped uint64 value, `none` for a nil pointer). -/
structure CpuUsage where
  timestamp : Int
  usageCoreNanoSeconds : Option Nat
deriving DecidableEq, Repr

/-- runtimeapi.MemoryUsage: `Timestamp int64`, `WorkingSetBytes *UInt64Value`. -/
structure MemoryUsage where
  timestamp : Int
  workingSetBytes : Option Nat
deriving DecidableEq, Repr

/-- runtimeapi.FilesystemIdentifier: `Mountpoint string`. -/
structure FilesystemIdentifier where
  mountpoint : String
deriving DecidableEq, Repr

/-- runtimeapi.FilesystemUsage: `Timestamp int64`, `FsId *FilesystemIdentifier`,
`UsedBytes *UInt64Value`, `InodesUsed *UInt64Value`. -/
structure FilesystemUsage where
  timestamp : Int
  fsId : Option FilesystemIdentifier
  usedBytes : Option Nat
  inodesUsed : Option Nat
deriving DecidableEq, Repr

/-- runtimeapi.ContainerMetadata (only the `Name` field is read). -/
structure ContainerMetadata where
  name : String
deriving DecidableEq, Repr

/-- runtimeapi.ContainerAttributes: `Id string`, `Metadata *ContainerMetadata`.
The provider dereferences `Attributes.Metadata.Name` without a nil check, so
`metadata` is kept as a plain field. -/
structure ContainerAttributes where
  id : String
  metadata : ContainerMetadata
deriving DecidableEq, Repr

/-- runtimeapi.ContainerStats: the raw per-container stat record returned by
`ListContainerStats`.  All four member pointers are nil-able. -/
structure ContainerStats where
  attributes : Option ContainerAttributes
  cpu : Option CpuUsage
  memory : Option MemoryUsage
  writableLayer : Option FilesystemUsage
deriving DecidableEq, Repr

/-- runtimeapi.ContainerState enumeration. -/
inductive ContainerState where
  | CONTAINER_CREATED
  | CONTAINER_RUNNING
  | CONTAINER_EXITED
  | CONTAINER_UNKNOWN
deriving DecidableEq, Repr

/-- The container labels read by the dedup key helpers (`buildPodRef`,
`GetContainerName`); modelled as the named fields those helpers extract. -/
structure ContainerLabels where
  podName : String
  podNamespace : String
  containerName : String
deriving DecidableEq, Repr

/-- runtimeapi.Container (the fields the provider reads): `Id`,
`PodSandboxId`, `CreatedAt int64`, `State`, `Labels`. -/
structure Container where
  id : String
  podSandboxId : String
  createdAt : Int
  state : ContainerState
  labels : ContainerLabels
deriving DecidableEq, Repr

/-- runtimeapi.PodSandboxState enumeration. -/
inductive PodSandboxState where
  | SANDBOX_READY
  | SANDBOX_NOTREADY
deriving DecidableEq, Repr

/-- runtimeapi.PodSandboxMetadata: `Name`, `Uid`, `Namespace`.  The provider
dereferences `Metadata` without a nil check (`buildPodStats`,
`addPodCPUMemoryStats`), so it is kept as a plain field of `PodSandbox`. -/
structure PodSandboxMetadata where
  name : String
  uid : String
  namespc : String
deriving DecidableEq, Repr

/-- runtimeapi.PodSandbox (the fields the provider reads): `Id`, `Metadata`,
`CreatedAt int64`, `State`. -/
structure PodSandbox where
  id : String
  metadata : PodSandboxMetadata
  createdAt : Int
  state : PodSandboxState
deriving DecidableEq, Repr

end runtimeapi

/-- Modelled from the spec: PodReference {Name, UID, Namespace} identifies a
pod-sandbox's logical identity (the summary-API type is defined outside this
excerpt). -/
structure PodReference where
  name : String
  uid : String
  namespc : String
deriving DecidableEq, Repr

/-- cpuUsageRecord: `stats *runtimeapi.CpuUsage`,
`usageNanoCores *uint64`. -/
structure cpuUsageRecord where
  stats : Option runtimeapi.CpuUsage
  usageNanoCores : Option Nat
deriving DecidableEq, Repr

/-- The `cpuUsageCache map[string]*cpuUsageRecord` field, modelled as an
association list from container id to the stored pointer value; a stored
`none` is a nil `*cpuUsageRecord`. -/
abbrev Cache := List (String × Option cpuUsageRecord)

/-- Go map read `m[k]`: `none` when the key is absent, otherwise the stored
(possibly nil) pointer. -/
def lookupC : Cache → String → Option (Option cpuUsageRecord)
  | [], _ => none
  | (k', v) :: t, k => if k' = k then some v else lookupC t k

/-- Go map write `m[k] = v`: replaces the binding in place or appends a new
one. -/
def insertC : Cache → String → Option cpuUsageRecord → Cache
  | [], k, v => [(k, v)]
  | (k', v') :: t, k, v => if k' = k then (k, v) :: t else (k', v') :: insertC t k v

/-- defaultCachePeriod = 10 * time.Minute, in nanoseconds. -/
def defaultCachePeriod : Int := 10 * 60 * 1000000000

/-- The rate expression of `getAndUpdateContainerUsageNanoCores`:
`uint64(float64(newUsage-cachedUsage) / float64(nanoSeconds) *
float64(time.Second/time.Nanosecond))`.  The `float64` arithmetic is modelled
exactly: for `0 < nanoSeconds` the truncated value is the floor of the exact
rational `delta * 1e9 / nanoSeconds`, i.e. `Nat` division. -/
def computeUsageNanoCores (delta : Nat) (nanoSeconds : Int) : Nat :=
  delta * 1000000000 / nanoSeconds.toNat

/-- getContainerUsageNanoCores: the read-only (updateCache = false) rate
lookup.  Result `none` models a nil-pointer fault (a nil record stored in the
cache is dereferenced); `some u` is the returned `*uint64`. -/
def getContainerUsageNanoCores (stats : Option runtimeapi.ContainerStats)
    (cache : Cache) : Option (Option Nat) :=
  match stats with
  | none => some none
  | some s =>
    match s.attributes with
    | none => some none
    | some attrs =>
      match lookupC cache attrs.id with
      | none => some none
      | some none => none
      | some (some cached) =>
        match cached.usageNanoCores with
        | none => some none
        | some latestUsage => some (some latestUsage)

/-- getAndUpdateContainerUsageNanoCores: the updateCache = true rate
observation.  Returns `none` on a nil-pointer fault (nil cached record or nil
`stats` field inside it); otherwise `some (usage, cache')` where `usage` is
the returned `*uint64` and `cache'` the cache after the call.  The
`nanoSeconds <= 0` branch corresponds to the error return inside the locked
closure: it yields no usage and leaves the cache untouched. -/
def getAndUpdateContainerUsageNanoCores (stats : Option runtimeapi.ContainerStats)
    (cache : Cache) : Option (Option Nat × Cache) :=
  match stats with
  | none => some (none, cache)
  | some s =>
    match s.attributes with
    | none => some (none, cache)
    | some attrs =>
      match s.cpu with
      | none => some (none, cache)
      | some cpu =>
        match cpu.usageCoreNanoSeconds with
        | none => some (none, cache)
        | some newVal =>
          let id := attrs.id
          match lookupC cache id with
          | none => some (none, insertC cache id (some ⟨some cpu, none⟩))
          | some none => none
          | some (some cached) =>
            match cached.stats with
            | none => none
            | some cachedStats =>
              match cachedStats.usageCoreNanoSeconds with
              | none => some (none, insertC cache id (some ⟨some cpu, none⟩))
              | some cachedVal =>
                if newVal < cachedVal then
                  some (none, insertC cache id (some ⟨some cpu, none⟩))
                else
                  let nanoSeconds := cpu.timestamp - cachedStats.timestamp
                  if nanoSeconds ≤ 0 then
                    some (none, cache)
                  else
                    let usageNanoCores := computeUsageNanoCores (newVal - cachedVal) nanoSeconds
                    some (some usageNanoCores,
                      insertC cache id (some ⟨some cpu, some usageNanoCores⟩))

/-- The per-entry decision of `cleanupOutdatedCaches`: `some false` deletes
the entry, `some true` keeps it, `none` is the nil-pointer fault of reading
`v.stats.Timestamp` through a nil `stats` pointer.  The age test is
`time.Since(time.Unix(0, v.stats.Timestamp)) > defaultCachePeriod`. -/
def cleanupKeeps (now : Int) (v : Option cpuUsageRecord) : Option Bool :=
  match v with
  | none => some false
  | some r =>
    match r.stats with
    | none => none
    | some cs => some (decide (¬ now - cs.timestamp > defaultCachePeriod))

/-- cleanupOutdatedCaches: the pass-end eviction sweep over the cache, given
the current wall-clock time `now` in nanoseconds.  `none` models the sweep
faulting on a malformed record. -/
def cleanupOutdatedCaches (now : Int) : Cache → Option Cache
  | [] => some []
  | (k, v) :: t =>
    match cleanupKeeps now v with
    | none => none
    | some false => cleanupOutdatedCaches now t
    | some true => (cleanupOutdatedCaches now t).map (fun t' => (k, v) :: t')

example : computeUsageNanoCores 500 1000 = 500000000 := by decide

example :
    getAndUpdateContainerUsageNanoCores
      (some ⟨some ⟨"c", ⟨"n"⟩⟩, some ⟨200, some 10⟩, none, none⟩)
      [("c", some ⟨some ⟨100, some 4⟩, none⟩)]
    = some (some 60000000, [("c", some ⟨some ⟨200, some 10⟩, some 60000000⟩)]) := by
  decide

/-- The first-occurrence key list of a Go map built by appending under
grouping: Go iterates a map in unspecified order, so the embedding fixes the
order of keys to first occurrence; the claims below are stated up to
permutation or per key, so the choice is immaterial. -/
def firstKeys {K : Type} [DecidableEq K] : List K → List K
  | [] => []
  | k :: t => k :: firstKeys (t.filter (fun x => x ≠ k))
termination_by l => l.length
decreasing_by
  simp only [List.length_cons]
  exact Nat.lt_succ_of_le (List.length_filter_le _ _)

/-- The grouping key of `removeTerminatedPods`:
`PodReference{Name, Namespace}` with the UID intentionally left empty. -/
def podRefKey (pod : runtimeapi.PodSandbox) : PodReference :=
  ⟨pod.metadata.name, "", pod.metadata.namespc⟩

/-- The per-group selection of `removeTerminatedPods`: a single entry is kept
unconditionally; otherwise every SANDBOX_READY entry is kept, and if none is
ready the last entry of the (creation-time sorted) group is kept. -/
def selectPodGroup (refs : List runtimeapi.PodSandbox) : List runtimeapi.PodSandbox :=
  if refs.length = 1 then refs
  else
    let ready := refs.filter (fun p => p.state = runtimeapi.PodSandboxState.SANDBOX_READY)
    if ready.isEmpty then
      match refs.getLast? with
      | none => []
      | some x => [x]
    else ready

/-- removeTerminatedPods: sort by creation time ascending, group by the
UID-less `PodReference`, then apply `selectPodGroup` to each group; groups
are emitted in first-occurrence key order (the Go map iteration order is
unspecified). -/
def removeTerminatedPods (pods : List runtimeapi.PodSandbox) : List runtimeapi.PodSandbox :=
  let sorted := pods.mergeSort (fun a b => a.createdAt ≤ b.createdAt)
  let keys := firstKeys (sorted.map podRefKey)
  keys.flatMap (fun k => selectPodGroup (sorted.filter (fun p => podRefKey p = k)))

/-- Modelled from the spec: `buildPodRef(container.Labels)` (defined outside
this excerpt) extracts the pod reference from the container labels; the data
model specifies the dedup identity as the UID-less pod reference. -/
def buildPodRef (labels : runtimeapi.ContainerLabels) : PodReference :=
  ⟨labels.podName, "", labels.podNamespace⟩

/-- Modelled from the spec: `GetContainerName(container.Labels)` (defined
outside this excerpt) extracts the container-name label. -/
def GetContainerName (labels : runtimeapi.ContainerLabels) : String :=
  labels.containerName

/-- containerID: the grouping key of `removeTerminatedContainers`. -/
structure containerID where
  podRef : PodReference
  containerName : String
deriving DecidableEq, Repr

/-- The grouping key computed in the loop of `removeTerminatedContainers`. -/
def containerKey (c : runtimeapi.Container) : containerID :=
  ⟨buildPodRef c.labels, GetContainerName c.labels⟩

/-- removeTerminatedContainers: sort by creation time ascending, group by
`containerID`, and keep exactly the CONTAINER_RUNNING members of every group
(no fallback for groups with no running member). -/
def removeTerminatedContainers (containers : List runtimeapi.Container) : List runtimeapi.Container :=
  let sorted := containers.mergeSort (fun a b => a.createdAt ≤ b.createdAt)
  let keys := firstKeys (sorted.map containerKey)
  keys.flatMap (fun k =>
    (sorted.filter (fun c => containerKey c = k)).filter
      (fun c => c.state = runtimeapi.ContainerState.CONTAINER_RUNNING))

/-- Modelled from the spec: statsapi CPUStats — timestamped, nilable usage
counters (`Time`, `UsageNanoCores *uint64`, `UsageCoreNanoSeconds *uint64`).
Times are kept as nanosecond `Int`s. -/
structure CPUStats where
  time : Int
  usageNanoCores : Option Nat
  usageCoreNanoSeconds : Option Nat
deriving DecidableEq, Repr

/-- Modelled from the spec: statsapi MemoryStats with nilable counters. -/
structure MemoryStats where
  time : Int
  availableBytes : Option Nat
  usageBytes : Option Nat
  workingSetBytes : Option Nat
  rssBytes : Option Nat
  pageFaults : Option Nat
  majorPageFaults : Option Nat
deriving DecidableEq, Repr

/-- Modelled from the spec: per-container process counters. -/
structure ProcessStats where
  processCount : Nat
  fdCount : Nat
  socketCount : Nat
  threadsCurrent : Nat
  threadsMax : Nat
deriving DecidableEq, Repr

/-- Modelled from the spec: statsapi FsStats with nilable counters. -/
structure FsStats where
  time : Int
  availableBytes : Option Nat
  capacityBytes : Option Nat
  usedBytes : Option Nat
  inodesFree : Option Nat
  inodes : Option Nat
  inodesUsed : Option Nat
deriving DecidableEq, Repr

/-- Pod-level network stats: produced only by out-of-excerpt helpers, so the
payload is opaque (a tag keeps distinct values distinguishable). -/
structure NetworkStats where
  tag : Nat
deriving DecidableEq, Repr

/-- One disk-io stat entry: produced only by out-of-excerpt helpers. -/
structure DiskIoStat where
  tag : Nat
deriving DecidableEq, Repr

/-- The `DiskIo map[string]*DiskIoStat` summary type. -/
abbrev DiskIoMap := List (String × Option DiskIoStat)

/-- A user-defined metric: produced only by out-of-excerpt helpers. -/
structure UserDefinedMetric where
  tag : Nat
deriving DecidableEq, Repr

/-- Modelled from the spec: statsapi ContainerStats — built fresh each pass
from merged sources. -/
structure ContainerStats where
  name : String
  startTime : Int
  cpu : Option CPUStats
  memory : Option MemoryStats
  rootfs : Option FsStats
  diskIo : Option DiskIoMap
  processStats : Option ProcessStats
  userDefinedMetrics : List UserDefinedMetric
deriving DecidableEq, Repr

/-- Modelled from the spec: statsapi PodStats — one per live sandbox, owning
its ContainerStats list and the pod-level aggregates. -/
structure PodStats where
  podRef : PodReference
  startTime : Int
  containers : List ContainerStats
  network : Option NetworkStats
  cpu : Option CPUStats
  memory : Option MemoryStats
  diskIo : Option DiskIoMap
  processStats : Option ProcessStats
deriving DecidableEq, Repr

/-- cadvisorapiv2.ContainerInfo: the provider only reads
`Spec.HasCustomMetrics` directly; everything else is consumed by
out-of-excerpt helpers. -/
structure ContainerInfo where
  hasCustomMetrics : Bool
  tag : Nat
deriving DecidableEq, Repr

/-- The `map[string]cadvisorapiv2.ContainerInfo` of cadvisor infos. -/
abbrev CadvisorInfos := List (String × ContainerInfo)

namespace cadvisorapiv1

/-- cadvisorapiv1.ProcessStats: the five counters read by
`convertToProcessStats`. -/
structure ProcessStats where
  processCount : Nat
  fdCount : Nat
  socketCount : Nat
  threadsCurrent : Nat
  threadsMax : Nat
deriving DecidableEq, Repr

/-- The v1 disk-io payload handed to `convertToDiskIoStats`: opaque. -/
structure DiskIoStats where
  tag : Nat
deriving DecidableEq, Repr

/-- The v1 memory record: `Usage` and `RSS` are read. -/
structure MemoryStats where
  usage : Nat
  rss : Nat
deriving DecidableEq, Repr

/-- The latest v1 container stats returned by `getLatestContainerStatsById`:
the provider reads `Processes`, `DiskIo` and (nilably) `Memory`. -/
structure ContainerStats where
  processes : Option ProcessStats
  diskIo : DiskIoStats
  memory : Option MemoryStats
deriving DecidableEq, Repr

end cadvisorapiv1

/-- cadvisorapiv2.FsInfo: the four fields read after a filesystem lookup. -/
structure FsInfo where
  available : Nat
  capacity : Nat
  inodesFree : Option Nat
  inodes : Option Nat
deriving DecidableEq, Repr

/-- Generic Go map read over an association list. -/
def lookupA {K β : Type} [DecidableEq K] : List (K × β) → K → Option β
  | [], _ => none
  | (k', v) :: t, k => if k' = k then some v else lookupA t k

/-- Generic Go map write: replace the binding in place or append it. -/
def insertA {K β : Type} [DecidableEq K] : List (K × β) → K → β → List (K × β)
  | [], k, v => [(k, v)]
  | (k', v') :: t, k, v => if k' = k then (k, v) :: t else (k', v') :: insertA t k v

/-- Repository helpers called by the provider whose source files are not part
of this excerpt (cadvisor conversion helpers, the disk-io `Add` method, the
filesystem queries).  They are pure functions of their arguments and never
touch the rate cache, so they are carried as opaque parameters. -/
structure Env where
  getDirFsInfo : String → Except String FsInfo
  getLatestContainerStatsById : String → CadvisorInfos → Option cadvisorapiv1.ContainerStats
  convertToDiskIoStats : cadvisorapiv1.DiskIoStats → Option DiskIoMap
  getCadvisorPodInfoFromPodUID : String → CadvisorInfos → Option ContainerInfo
  cadvisorInfoToNetworkStats : ContainerInfo → Option NetworkStats
  cadvisorInfoToCPUandMemoryStats : ContainerInfo → Option CPUStats × Option MemoryStats
  cadvisorInfoToDiskIoStats : ContainerInfo → Option DiskIoMap
  cadvisorInfoToProcessStats : ContainerInfo → Option ProcessStats
  cadvisorInfoToUserDefinedMetrics : ContainerInfo → List UserDefinedMetric
  removeTerminatedContainerInfo : CadvisorInfos → CadvisorInfos
  isPodManagedContainer : ContainerInfo → Bool
  diskIoAdd : DiskIoMap → Option DiskIoMap → DiskIoMap

/-- Modelled from the spec: `getUint64Value` — an absent field contributes 0
to a sum, a present zero is a real measurement. -/
def getUint64Value : Option Nat → Nat
  | none => 0
  | some v => v

/-- uint64Ptr: a pointer to the given value. -/
def uint64Ptr (v : Nat) : Option Nat := some v

/-- buildPodStats: the PodStats identifying the pod of a sandbox; `StartTime`
is the sandbox creation time. -/
def buildPodStats (podSandbox : runtimeapi.PodSandbox) : PodStats :=
  { podRef := { name := podSandbox.metadata.name
                uid := podSandbox.metadata.uid
                namespc := podSandbox.metadata.namespc }
    startTime := podSandbox.createdAt
    containers := []
    network := none
    cpu := none
    memory := none
    diskIo := none
    processStats := none }

/-- addPodNetworkStats: prefer cadvisor's sandbox network stats, fall back to
the per-sandbox network listing; otherwise leave `ps.Network` alone. -/
def addPodNetworkStats (env : Env) (ps : PodStats) (podSandboxID : String)
    (caInfos : CadvisorInfos) (_cs : ContainerStats)
    (netStats : Option NetworkStats) : PodStats :=
  match lookupA caInfos podSandboxID with
  | some caPodSandbox =>
    match env.cadvisorInfoToNetworkStats caPodSandbox with
    | some networkStats => { ps with network := some networkStats }
    | none =>
      match netStats with
      | some n => { ps with network := some n }
      | none => ps
  | none =>
    match netStats with
    | some n => { ps with network := some n }
    | none => ps

/-- addPodCPUMemoryStats: prefer the cadvisor pod-cgroup info; otherwise sum
the container's CPU/memory counters into the pod aggregate, treating absent
fields as 0. -/
def addPodCPUMemoryStats (env : Env) (ps : PodStats) (podUID : String)
    (allInfos : CadvisorInfos) (cs : ContainerStats) : PodStats :=
  match env.getCadvisorPodInfoFromPodUID podUID allInfos with
  | some podCgroupInfo =>
    let (cpu, memory) := env.cadvisorInfoToCPUandMemoryStats podCgroupInfo
    { ps with cpu := cpu, memory := memory }
  | none =>
    let ps1 :=
      match cs.cpu with
      | none => ps
      | some csCPU =>
        let base : CPUStats :=
          match ps.cpu with
          | none => { time := 0, usageNanoCores := none, usageCoreNanoSeconds := none }
          | some c => c
        let usageCoreNanoSeconds :=
          getUint64Value csCPU.usageCoreNanoSeconds + getUint64Value base.usageCoreNanoSeconds
        let usageNanoCores :=
          getUint64Value csCPU.usageNanoCores + getUint64Value base.usageNanoCores
        { ps with cpu := some { base with
            time := csCPU.time
            usageCoreNanoSeconds := some usageCoreNanoSeconds
            usageNanoCores := some usageNanoCores } }
    match cs.memory with
    | none => ps1
    | some csMem =>
      let base : MemoryStats :=
        match ps1.memory with
        | none => { time := 0, availableBytes := none, usageBytes := none,
                    workingSetBytes := none, rssBytes := none, pageFaults := none,
                    majorPageFaults := none }
        | some m => m
      { ps1 with memory := some { base with
          time := csMem.time
          availableBytes := some (getUint64Value csMem.availableBytes + getUint64Value base.availableBytes)
          usageBytes := some (getUint64Value csMem.usageBytes + getUint64Value base.usageBytes)
          workingSetBytes := some (getUint64Value csMem.workingSetBytes + getUint64Value base.workingSetBytes)
          rssBytes := some (getUint64Value csMem.rssBytes + getUint64Value base.rssBytes)
          pageFaults := some (getUint64Value csMem.pageFaults + getUint64Value base.pageFaults)
          majorPageFaults := some (getUint64Value csMem.majorPageFaults + getUint64Value base.majorPageFaults) } }

/-- addDiskIoStats: pod disk-io from the cadvisor pod info when present, then
fold in the container's disk-io map. -/
def addDiskIoStats (env : Env) (ps : PodStats) (podUID : String)
    (allInfos : CadvisorInfos) (cs : ContainerStats) : PodStats :=
  let ps1 :=
    match env.getCadvisorPodInfoFromPodUID podUID allInfos with
    | some info => { ps with diskIo := env.cadvisorInfoToDiskIoStats info }
    | none => ps
  let dm : DiskIoMap :=
    match ps1.diskIo with
    | none => []
    | some m => m
  { ps1 with diskIo := some (env.diskIoAdd dm cs.diskIo) }

/-- addProcessStats: cadvisor pod-level process stats when present, plus the
container's counters. -/
def addProcessStats (env : Env) (ps : PodStats) (podUID : String)
    (allInfos : CadvisorInfos) (cs : ContainerStats) : PodStats :=
  let ps1 :=
    match env.getCadvisorPodInfoFromPodUID podUID allInfos with
    | some info => { ps with processStats := env.cadvisorInfoToProcessStats info }
    | none => ps
  match cs.processStats with
  | none => ps1
  | some csps =>
    let base : ProcessStats :=
      match ps1.processStats with
      | none => { processCount := 0, fdCount := 0, socketCount := 0,
                  threadsCurrent := 0, threadsMax := 0 }
      | some p => p
    { ps1 with processStats := some {
          processCount := base.processCount + csps.processCount
          fdCount := base.fdCount + csps.fdCount
          socketCount := base.socketCount + csps.socketCount
          threadsCurrent := base.threadsCurrent + csps.threadsCurrent
          threadsMax := base.threadsMax + csps.threadsMax } }

/-- getFsInfo: returns the filesystem info for `fsID`, or nil on a nil id or
a lookup error (errors are only logged). -/
def getFsInfo (env : Env) (fsID : Option runtimeapi.FilesystemIdentifier) : Option FsInfo :=
  match fsID with
  | none => none
  | some f =>
    match env.getDirFsInfo f.mountpoint with
    | .error _ => none
    | .ok fsInfo => some fsInfo

/-- convertToProcessStats: copy the cadvisor v1 process counters, nil in nil
out. -/
def convertToProcessStats (cStats : Option cadvisorapiv1.ProcessStats) : Option ProcessStats :=
  match cStats with
  | none => none
  | some c => some
      { processCount := c.processCount
        fdCount := c.fdCount
        socketCount := c.socketCount
        threadsCurrent := c.threadsCurrent
        threadsMax := c.threadsMax }

/-- addCadvisorContainerStats: custom metrics when declared, and prefer the
cadvisor CPU/memory numbers when present. -/
def addCadvisorContainerStats (env : Env) (cs : ContainerStats)
    (caPodStats : ContainerInfo) : ContainerStats :=
  let cs1 :=
    if caPodStats.hasCustomMetrics then
      { cs with userDefinedMetrics := env.cadvisorInfoToUserDefinedMetrics caPodStats }
    else cs
  let (cpu, memory) := env.cadvisorInfoToCPUandMemoryStats caPodStats
  let cs2 :=
    match cpu with
    | some c => { cs1 with cpu := some c }
    | none => cs1
  match memory with
  | some m => { cs2 with memory := some m }
  | none => cs2

/-- Go path.Base. -/
def pathBase (s : String) : String :=
  if s = "" then "."
  else
    let stripped := (s.toList.reverse.dropWhile (fun c => c = '/')).reverse
    if stripped = [] then "/"
    else String.mk (stripped.reverse.takeWhile (fun c => c ≠ '/')).reverse

/-- getCRICadvisorStats: re-key the (terminated-info-filtered) cadvisor infos
by the base name of their cgroup path, dropping `.mount` cgroups and
non-pod-managed containers. -/
def getCRICadvisorStats (env : Env) (infos : CadvisorInfos) : CadvisorInfos :=
  (env.removeTerminatedContainerInfo infos).foldl
    (fun acc kv =>
      if kv.1.endsWith ".mount" then acc
      else if env.isPodManagedContainer kv.2 then insertA acc (pathBase kv.1) kv.2
      else acc)
    []

/-- The `fsIDtoInfo` per-pass lookup cache; Go stores the possibly-nil
`*FsInfo` result of `getFsInfo`. -/
abbrev FsMap := List (runtimeapi.FilesystemIdentifier × Option FsInfo)

/-- makeContainerStats: builds one summary ContainerStats from a raw CRI
record.  `now` is the wall clock used for the zero-valued placeholders.
Returns `none` when the embedded rate-cache access faults (nil record in the
cache); otherwise the stats, the updated `fsIDtoInfo` cache and the updated
rate cache (unchanged when `updateCPUNanoCoreUsage` is false). -/
def makeContainerStats (env : Env) (now : Int) (stats : runtimeapi.ContainerStats)
    (container : runtimeapi.Container) (_rootFsInfo : FsInfo) (fsIDtoInfo : FsMap)
    (_meta : runtimeapi.PodSandboxMetadata) (updateCPUNanoCoreUsage : Bool)
    (infos : CadvisorInfos) (cache : Cache) :
    Option (ContainerStats × FsMap × Cache) :=
  match stats.attributes with
  | none => none
  | some attrs =>
    let result0 : ContainerStats :=
      { name := attrs.metadata.name
        startTime := container.createdAt
        cpu := some { time := 0, usageNanoCores := none, usageCoreNanoSeconds := none }
        memory := some { time := 0, availableBytes := none, usageBytes := none,
                         workingSetBytes := none, rssBytes := none, pageFaults := none,
                         majorPageFaults := none }
        rootfs := some { time := 0, availableBytes := none, capacityBytes := none,
                         usedBytes := none, inodesFree := none, inodes := none,
                         inodesUsed := none }
        diskIo := none
        processStats := some { processCount := 0, fdCount := 0, socketCount := 0,
                               threadsCurrent := 0, threadsMax := 0 }
        userDefinedMetrics := [] }
    let cStats := env.getLatestContainerStatsById attrs.id infos
    let result1 :=
      match cStats with
      | none => result0
      | some c => { result0 with
          processStats := convertToProcessStats c.processes
          diskIo := env.convertToDiskIoStats c.diskIo }
    let cpuStep : Option (CPUStats × Cache) :=
      match stats.cpu with
      | some cpu =>
        let cpu0 : CPUStats :=
          { time := cpu.timestamp
            usageNanoCores := none
            usageCoreNanoSeconds := cpu.usageCoreNanoSeconds }
        if updateCPUNanoCoreUsage then
          match getAndUpdateContainerUsageNanoCores (some stats) cache with
          | none => none
          | some (u, cache') => some ({ cpu0 with usageNanoCores := u }, cache')
        else
          match getContainerUsageNanoCores (some stats) cache with
          | none => none
          | some u => some ({ cpu0 with usageNanoCores := u }, cache)
      | none =>
        some ({ time := now, usageNanoCores := uint64Ptr 0,
                usageCoreNanoSeconds := uint64Ptr 0 }, cache)
    match cpuStep with
    | none => none
    | some (cpuStats, cache') =>
      let memStats : MemoryStats :=
        match stats.memory with
        | some m =>
          { time := m.timestamp
            availableBytes := none
            usageBytes :=
              match cStats with
              | some c => c.memory.map (fun mm => mm.usage)
              | none => none
            workingSetBytes := m.workingSetBytes
            rssBytes :=
              match cStats with
              | some c => c.memory.map (fun mm => mm.rss)
              | none => none
            pageFaults := none
            majorPageFaults := none }
        | none =>
          { time := now, availableBytes := none, usageBytes := none,
            workingSetBytes := uint64Ptr 0, rssBytes := none, pageFaults := none,
            majorPageFaults := none }
      let fs1 : FsStats :=
        match stats.writableLayer with
        | some wl =>
          { time := wl.timestamp, availableBytes := none, capacityBytes := none,
            usedBytes := wl.usedBytes, inodesFree := none, inodes := none,
            inodesUsed := wl.inodesUsed }
        | none =>
          { time := 0, availableBytes := none, capacityBytes := none,
            usedBytes := none, inodesFree := none, inodes := none, inodesUsed := none }
      let fsID : Option runtimeapi.FilesystemIdentifier :=
        match stats.writableLayer with
        | none => none
        | some wl => wl.fsId
      let fsPair : FsStats × FsMap :=
        match fsID with
        | none => (fs1, fsIDtoInfo)
        | some f =>
          let imgPair : Option FsInfo × FsMap :=
            match lookupA fsIDtoInfo f with
            | some i => (i, fsIDtoInfo)
            | none =>
              let i := getFsInfo env (some f)
              (i, insertA fsIDtoInfo f i)
          match imgPair.1 with
          | none => (fs1, imgPair.2)
          | some info =>
            ({ fs1 with
                availableBytes := some info.available
                capacityBytes := some info.capacity
                inodesFree := info.inodesFree
                inodes := info.inodes }, imgPair.2)
      some ({ result1 with
                cpu := some cpuStats
                memory := some memStats
                rootfs := some fsPair.1 }, fsPair.2, cache')

/-- makeContainerCPUAndMemoryStats: the lighter-weight variant used by
`ListPodCPUAndMemoryStats`; always a read-only cache access.  `none` models
the nil-record fault. -/
def makeContainerCPUAndMemoryStats (env : Env) (now : Int)
    (stats : runtimeapi.ContainerStats) (container : runtimeapi.Container)
    (infos : CadvisorInfos) (cache : Cache) : Option ContainerStats :=
  match stats.attributes with
  | none => none
  | some attrs =>
    let result0 : ContainerStats :=
      { name := attrs.metadata.name
        startTime := container.createdAt
        cpu := some { time := 0, usageNanoCores := none, usageCoreNanoSeconds := none }
        memory := some { time := 0, availableBytes := none, usageBytes := none,
                         workingSetBytes := none, rssBytes := none, pageFaults := none,
                         majorPageFaults := none }
        rootfs := none
        diskIo := none
        processStats := some { processCount := 0, fdCount := 0, socketCount := 0,
                               threadsCurrent := 0, threadsMax := 0 }
        userDefinedMetrics := [] }
    let cStats := env.getLatestContainerStatsById attrs.id infos
    let result1 :=
      match cStats with
      | none => result0
      | some c => { result0 with
          processStats := convertToProcessStats c.processes
          diskIo := env.convertToDiskIoStats c.diskIo }
    let cpuStep : Option CPUStats :=
      match stats.cpu with
      | some cpu =>
        match getContainerUsageNanoCores (some stats) cache with
        | none => none
        | some u =>
          some { time := cpu.timestamp
                 usageNanoCores := u
                 usageCoreNanoSeconds := cpu.usageCoreNanoSeconds }
      | none =>
        some { time := now, usageNanoCores := uint64Ptr 0,
               usageCoreNanoSeconds := uint64Ptr 0 }
    match cpuStep with
    | none => none
    | some cpuStats =>
      let memStats : MemoryStats :=
        match stats.memory with
        | some m =>
          { time := m.timestamp
            availableBytes := none
            usageBytes :=
              match cStats with
              | some c => c.memory.map (fun mm => mm.usage)
              | none => none
            workingSetBytes := m.workingSetBytes
            rssBytes :=
              match cStats with
              | some c => c.memory.map (fun mm => mm.rss)
              | none => none
            pageFaults := none
            majorPageFaults := none }
        | none =>
          { time := now, availableBytes := none, usageBytes := none,
            workingSetBytes := uint64Ptr 0, rssBytes := none, pageFaults := none,
            majorPageFaults := none }
      some { result1 with cpu := some cpuStats, memory := some memStats }

/-- The per-pass loop state of `listPodStats`: the `sandboxIDToPodStats`
map, the `fsIDtoInfo` cache, and the shared rate cache. -/
abbrev LoopState := List (String × PodStats) × FsMap × Cache

/-- One iteration of the stat-record loop of `listPodStats`.  `some st`
unchanged models `continue` (unresolvable container or sandbox); `none`
models a fault. -/
def listPodStatsStep (env : Env) (now : Int) (rootFsInfo : FsInfo)
    (containerMap : List (String × runtimeapi.Container))
    (podSandboxMap : List (String × runtimeapi.PodSandbox))
    (caInfos allInfos : CadvisorInfos)
    (containerNetworkStats : String → Option NetworkStats)
    (updateCPUNanoCoreUsage : Bool)
    (st : LoopState) (stats : runtimeapi.ContainerStats) : Option LoopState :=
  match stats.attributes with
  | none => none
  | some attrs =>
    let containerID := attrs.id
    match lookupA containerMap containerID with
    | none => some st
    | some container =>
      let podSandboxID := container.podSandboxId
      match lookupA podSandboxMap podSandboxID with
      | none => some st
      | some podSandbox =>
        let (m, fsMap, cache) := st
        let ps :=
          match lookupA m podSandboxID with
          | some ps => ps
          | none => buildPodStats podSandbox
        match makeContainerStats env now stats container rootFsInfo fsMap
            podSandbox.metadata updateCPUNanoCoreUsage allInfos cache with
        | none => none
        | some (cs, fsMap', cache') =>
          let ps1 := addPodNetworkStats env ps podSandboxID caInfos cs
            (containerNetworkStats podSandboxID)
          let ps2 := addPodCPUMemoryStats env ps1 podSandbox.metadata.uid allInfos cs
          let ps3 := addDiskIoStats env ps2 podSandboxID allInfos cs
          let ps4 := addProcessStats env ps3 podSandboxID allInfos cs
          let csFinal :=
            match lookupA caInfos containerID with
            | none => cs
            | some caStats => addCadvisorContainerStats env cs caStats
          let ps5 := { ps4 with containers := ps4.containers ++ [csFinal] }
          some (insertA m podSandboxID ps5, fsMap', cache')

/-- The stat-record loop of `listPodStats`, left to right. -/
def runListPodStatsLoop (env : Env) (now : Int) (rootFsInfo : FsInfo)
    (containerMap : List (String × runtimeapi.Container))
    (podSandboxMap : List (String × runtimeapi.PodSandbox))
    (caInfos allInfos : CadvisorInfos)
    (containerNetworkStats : String → Option NetworkStats)
    (updateCPUNanoCoreUsage : Bool) :
    LoopState → List runtimeapi.ContainerStats → Option LoopState
  | st, [] => some st
  | st, s :: rest =>
    match listPodStatsStep env now rootFsInfo containerMap podSandboxMap caInfos
        allInfos containerNetworkStats updateCPUNanoCoreUsage st s with
    | none => none
    | some st' =>
      runListPodStatsLoop env now rootFsInfo containerMap podSandboxMap caInfos
        allInfos containerNetworkStats updateCPUNanoCoreUsage st' rest

/-- listPodStats: one snapshot pass.  The results of the upstream fetches
(node root filesystem, container listing, sandbox listing, per-container
stats, cadvisor infos, per-sandbox network stats) are passed in as `Except`
values; `now` is the wall clock.  Result `none` models a pass that faults;
otherwise the returned value and the rate cache after the pass. -/
def listPodStats (env : Env) (now : Int)
    (rootFsResp : Except String FsInfo)
    (csResp : Except String (List runtimeapi.Container))
    (sandboxResp : Except String (List runtimeapi.PodSandbox))
    (cstsResp : Except String (List runtimeapi.ContainerStats))
    (allInfosResp : Except String CadvisorInfos)
    (netResp : Except String (String → Option NetworkStats))
    (updateCPUNanoCoreUsage : Bool)
    (cache : Cache) : Option (Except String (List PodStats) × Cache) :=
  match rootFsResp with
  | .error e => some (.error ("failed to get rootFs info: " ++ e), cache)
  | .ok rootFsInfo =>
  match csResp with
  | .error e => some (.error ("failed to list all containers: " ++ e), cache)
  | .ok containers =>
  match sandboxResp with
  | .error e => some (.error ("failed to list all pod sandboxes: " ++ e), cache)
  | .ok items =>
  let podSandboxes := removeTerminatedPods items
  let podSandboxMap := podSandboxes.foldl (fun m s => insertA m s.id s) []
  match cstsResp with
  | .error e => some (.error ("failed to list all container stats: " ++ e), cache)
  | .ok cstsStats =>
  let containers2 := removeTerminatedContainers containers
  let containerMap := containers2.foldl (fun m c => insertA m c.id c) []
  match allInfosResp with
  | .error e => some (.error ("failed to fetch cadvisor stats: " ++ e), cache)
  | .ok allInfos =>
  let caInfos := getCRICadvisorStats env allInfos
  match netResp with
  | .error e => some (.error ("failed to list container network stats: " ++ e), cache)
  | .ok containerNetworkStats =>
  match runListPodStatsLoop env now rootFsInfo containerMap podSandboxMap caInfos
      allInfos containerNetworkStats updateCPUNanoCoreUsage ([], [], cache) cstsStats with
  | none => none
  | some (m, _, cache1) =>
    match cleanupOutdatedCaches now cache1 with
    | none => none
    | some cache2 => some (.ok (m.map Prod.snd), cache2)

/-- ListPodStats: the computeRate = false entry point (`listPodStats(false)`). -/
def ListPodStats (env : Env) (now : Int)
    (rootFsResp : Except String FsInfo)
    (csResp : Except String (List runtimeapi.Container))
    (sandboxResp : Except String (List runtimeapi.PodSandbox))
    (cstsResp : Except String (List runtimeapi.ContainerStats))
    (allInfosResp : Except String CadvisorInfos)
    (netResp : Except String (String → Option NetworkStats))
    (cache : Cache) : Option (Except String (List PodStats) × Cache) :=
  listPodStats env now rootFsResp csResp sandboxResp cstsResp allInfosResp netResp false cache

/-- ListPodStatsAndUpdateCPUNanoCoreUsage: the computeRate = true entry point
(`listPodStats(true)`). -/
def ListPodStatsAndUpdateCPUNanoCoreUsage (env : Env) (now : Int)
    (rootFsResp : Except String FsInfo)
    (csResp : Except String (List runtimeapi.Container))
    (sandboxResp : Except String (List runtimeapi.PodSandbox))
    (cstsResp : Except String (List runtimeapi.ContainerStats))
    (allInfosResp : Except String CadvisorInfos)
    (netResp : Except String (String → Option NetworkStats))
    (cache : Cache) : Option (Except String (List PodStats) × Cache) :=
  listPodStats env now rootFsResp csResp sandboxResp cstsResp allInfosResp netResp true cache

/-- One iteration of the stat-record loop of `ListPodCPUAndMemoryStats`. -/
def listPodCPUAndMemoryStep (env : Env) (now : Int)
    (containerMap : List (String × runtimeapi.Container))
    (podSandboxMap : List (String × runtimeapi.PodSandbox))
    (caInfos allInfos : CadvisorInfos) (cache : Cache)
    (m : List (String × PodStats)) (stats : runtimeapi.ContainerStats) :
    Option (List (String × PodStats)) :=
  match stats.attributes with
  | none => none
  | some attrs =>
    let containerID := attrs.id
    match lookupA containerMap containerID with
    | none => some m
    | some container =>
      let podSandboxID := container.podSandboxId
      match lookupA podSandboxMap podSandboxID with
      | none => some m
      | some podSandbox =>
        let ps :=
          match lookupA m podSandboxID with
          | some ps => ps
          | none => buildPodStats podSandbox
        match makeContainerCPUAndMemoryStats env now stats container allInfos cache with
        | none => none
        | some cs =>
          let ps1 := addPodCPUMemoryStats env ps podSandbox.metadata.uid allInfos cs
          let ps2 := addDiskIoStats env ps1 podSandboxID allInfos cs
          let ps3 := addProcessStats env ps2 podSandboxID allInfos cs
          let csFinal :=
            match lookupA caInfos containerID with
            | none => cs
            | some caStats => addCadvisorContainerStats env cs caStats
          let ps4 := { ps3 with containers := ps3.containers ++ [csFinal] }
          some (insertA m podSandboxID ps4)

/-- The stat-record loop of `ListPodCPUAndMemoryStats`, left to right. -/
def runListPodCPUAndMemoryLoop (env : Env) (now : Int)
    (containerMap : List (String × runtimeapi.Container))
    (podSandboxMap : List (String × runtimeapi.PodSandbox))
    (caInfos allInfos : CadvisorInfos) (cache : Cache) :
    List (String × PodStats) → List runtimeapi.ContainerStats →
    Option (List (String × PodStats))
  | m, [] => some m
  | m, s :: rest =>
    match listPodCPUAndMemoryStep env now containerMap podSandboxMap caInfos
        allInfos cache m s with
    | none => none
    | some m' =>
      runListPodCPUAndMemoryLoop env now containerMap podSandboxMap caInfos
        allInfos cache m' rest

/-- ListPodCPUAndMemoryStats: the lighter-weight snapshot pass (four fetches,
read-only rate-cache lookups, pass-end eviction sweep). -/
def ListPodCPUAndMemoryStats (env : Env) (now : Int)
    (csResp : Except String (List runtimeapi.Container))
    (sandboxResp : Except String (List runtimeapi.PodSandbox))
    (cstsResp : Except String (List runtimeapi.ContainerStats))
    (allInfosResp : Except String CadvisorInfos)
    (cache : Cache) : Option (Except String (List PodStats) × Cache) :=
  match csResp with
  | .error e => some (.error ("failed to list all containers: " ++ e), cache)
  | .ok containers =>
  match sandboxResp with
  | .error e => some (.error ("failed to list all pod sandboxes: " ++ e), cache)
  | .ok items =>
  let podSandboxes := removeTerminatedPods items
  let podSandboxMap := podSandboxes.foldl (fun m s => insertA m s.id s) []
  match cstsResp with
  | .error e => some (.error ("failed to list all container stats: " ++ e), cache)
  | .ok cstsStats =>
  let containers2 := removeTerminatedContainers containers
  let containerMap := containers2.foldl (fun m c => insertA m c.id c) []
  match allInfosResp with
  | .error e => some (.error ("failed to fetch cadvisor stats: " ++ e), cache)
  | .ok allInfos =>
  let caInfos := getCRICadvisorStats env allInfos
  match runListPodCPUAndMemoryLoop env now containerMap podSandboxMap caInfos
      allInfos cache [] cstsStats with
  | none => none
  | some m =>
    match cleanupOutdatedCaches now cache with
    | none => none
    | some cache2 => some (.ok (m.map Prod.snd), cache2)

/-- A concrete environment (arbitrary values for the out-of-excerpt helpers)
used to instantiate theorems on closed inputs. -/
def trivialEnv : Env :=
  { getDirFsInfo := fun _ => Except.error "no fs"
    getLatestContainerStatsById := fun _ _ => none
    convertToDiskIoStats := fun _ => none
    getCadvisorPodInfoFromPodUID := fun _ _ => none
    cadvisorInfoToNetworkStats := fun _ => none
    cadvisorInfoToCPUandMemoryStats := fun _ => (none, none)
    cadvisorInfoToDiskIoStats := fun _ => none
    cadvisorInfoToProcessStats := fun _ => none
    cadvisorInfoToUserDefinedMetrics := fun _ => []
    removeTerminatedContainerInfo := fun i => i
    isPodManagedContainer := fun _ => false
    diskIoAdd := fun m _ => m }

lemma lookupC_insertC_self (c : Cache) (k : String) (v : Option cpuUsageRecord) :
    lookupC (insertC c k v) k = some v := by
  induction c with
  | nil => simp [insertC, lookupC]
  | cons hd t ih =>
    obtain ⟨k', v'⟩ := hd
    by_cases h : k' = k <;> simp [insertC, lookupC, h, ih]

lemma lookupC_insertC_ne (c : Cache) (k k' : String) (v : Option cpuUsageRecord)
    (h : k' ≠ k) : lookupC (insertC c k v) k' = lookupC c k' := by
  have h2 : ¬ k = k' := fun e => h e.symm
  induction c with
  | nil => simp [insertC, lookupC, h2]
  | cons hd t ih =>
    obtain ⟨k0, v0⟩ := hd
    by_cases h0 : k0 = k
    · subst h0
      simp [insertC, lookupC, h2]
    · simp only [insertC, if_neg h0]
      by_cases h1 : k0 = k' <;> simp [lookupC, h1, ih]

lemma mem_insertC : ∀ (c : Cache) (k : String) (v : Option cpuUsageRecord)
    (kv : String × Option cpuUsageRecord), kv ∈ insertC c k v → kv ∈ c ∨ kv = (k, v)
  | [], k, v, kv, h => by
    simp only [insertC, List.mem_singleton] at h
    exact Or.inr h
  | (k0, v0) :: t, k, v, kv, h => by
    by_cases h0 : k0 = k
    · simp only [insertC, if_pos h0, List.mem_cons] at h
      rcases h with h | h
      · exact Or.inr h
      · exact Or.inl (List.mem_cons_of_mem _ h)
    · simp only [insertC, if_neg h0, List.mem_cons] at h
      rcases h with h | h
      · exact Or.inl (List.mem_cons.mpr (Or.inl h))
      · rcases mem_insertC t k v kv h with h' | h'
        · exact Or.inl (List.mem_cons_of_mem _ h')
        · exact Or.inr h'

lemma lookupC_mem : ∀ (c : Cache) (k : String) (v : Option cpuUsageRecord),
    lookupC c k = some v → (k, v) ∈ c
  | [], k, v, h => by simp [lookupC] at h
  | (k0, v0) :: t, k, v, h => by
    by_cases h0 : k0 = k
    · subst h0
      simp [lookupC] at h
      simp [h]
    · simp only [lookupC, if_neg h0] at h
      exact List.mem_cons_of_mem _ (lookupC_mem t k v h)

/-- C3: a new cumulative CPU counter strictly below the cached one yields no
rate (the returned usage is absent, never a wrapped value) and the cache
entry for the container is replaced by the new raw sample with an absent
rate. -/
theorem counter_regression_no_rate
    (s : runtimeapi.ContainerStats) (attrs : runtimeapi.ContainerAttributes)
    (cpu : runtimeapi.CpuUsage) (newVal : Nat) (cache : Cache)
    (r : cpuUsageRecord) (cs : runtimeapi.CpuUsage) (cachedVal : Nat)
    (hattrs : s.attributes = some attrs) (hcpu : s.cpu = some cpu)
    (hval : cpu.usageCoreNanoSeconds = some newVal)
    (hlook : lookupC cache attrs.id = some (some r))
    (hstats : r.stats = some cs)
    (hcached : cs.usageCoreNanoSeconds = some cachedVal)
    (hlt : newVal < cachedVal) :
    getAndUpdateContainerUsageNanoCores (some s) cache =
      some (none, insertC cache attrs.id (some ⟨some cpu, none⟩)) ∧
    lookupC (insertC cache attrs.id (some ⟨some cpu, none⟩)) attrs.id =
      some (some ⟨some cpu, none⟩) := by
  refine ⟨?_, lookupC_insertC_self _ _ _⟩
  simp only [getAndUpdateContainerUsageNanoCores, hattrs, hcpu, hval, hlook, hstats,
    hcached, if_pos hlt]

/-- Witness for `counter_regression_no_rate` at a concrete regression. -/
theorem counter_regression_no_rate_witness :
    getAndUpdateContainerUsageNanoCores
      (some ⟨some ⟨"c", ⟨"n"⟩⟩, some ⟨200, some 3⟩, none, none⟩)
      [("c", some ⟨some ⟨100, some 7⟩, none⟩)] =
      some (none, insertC [("c", some ⟨some ⟨100, some 7⟩, none⟩)] "c"
        (some ⟨some ⟨200, some 3⟩, none⟩)) ∧
    lookupC (insertC [("c", some ⟨some ⟨100, some 7⟩, none⟩)] "c"
      (some ⟨some ⟨200, some 3⟩, none⟩)) "c" =
      some (some ⟨some ⟨200, some 3⟩, none⟩) :=
  counter_regression_no_rate
    ⟨some ⟨"c", ⟨"n"⟩⟩, some ⟨200, some 3⟩, none, none⟩
    ⟨"c", ⟨"n"⟩⟩ ⟨200, some 3⟩ 3
    [("c", some ⟨some ⟨100, some 7⟩, none⟩)]
    ⟨some ⟨100, some 7⟩, none⟩ ⟨100, some 7⟩ 7
    rfl rfl rfl (by decide) rfl rfl (by decide)

/-- C4: when a prior cache entry exists and the cumulative counter strictly
increases over a strictly positive interval, the updateCache = true
observation returns the nanocore rate `delta * 1e9 / interval` (the floor of
the exact quotient, i.e. within one unit of `delta/interval * 1e9`) and
stores that rate together with the new raw sample in the cache. -/
theorem rate_increase_computes_rate
    (s : runtimeapi.ContainerStats) (attrs : runtimeapi.ContainerAttributes)
    (cpu : runtimeapi.CpuUsage) (newVal : Nat) (cache : Cache)
    (r : cpuUsageRecord) (cs : runtimeapi.CpuUsage) (cachedVal : Nat)
    (hattrs : s.attributes = some attrs) (hcpu : s.cpu = some cpu)
    (hval : cpu.usageCoreNanoSeconds = some newVal)
    (hlook : lookupC cache attrs.id = some (some r))
    (hstats : r.stats = some cs)
    (hcached : cs.usageCoreNanoSeconds = some cachedVal)
    (hgt : cachedVal < newVal)
    (hdt : 0 < cpu.timestamp - cs.timestamp) :
    ∃ q : Nat,
      getAndUpdateContainerUsageNanoCores (some s) cache =
        some (some q, insertC cache attrs.id (some ⟨some cpu, some q⟩)) ∧
      (cpu.timestamp - cs.timestamp).toNat * q ≤ (newVal - cachedVal) * 1000000000 ∧
      (newVal - cachedVal) * 1000000000 < (cpu.timestamp - cs.timestamp).toNat * (q + 1) ∧
      lookupC (insertC cache attrs.id (some ⟨some cpu, some q⟩)) attrs.id =
        some (some ⟨some cpu, some q⟩) := by
  refine ⟨computeUsageNanoCores (newVal - cachedVal) (cpu.timestamp - cs.timestamp),
    ?_, ?_, ?_, lookupC_insertC_self _ _ _⟩
  · simp only [getAndUpdateContainerUsageNanoCores, hattrs, hcpu, hval, hlook, hstats,
      hcached, if_neg (Nat.not_lt.mpr (Nat.le_of_lt hgt))]
    rw [if_neg (show ¬ cpu.timestamp - cs.timestamp ≤ 0 by omega)]
  · have hD : 0 < (cpu.timestamp - cs.timestamp).toNat := by omega
    have h1 := Nat.div_add_mod ((newVal - cachedVal) * 1000000000)
      (cpu.timestamp - cs.timestamp).toNat
    have h2 := Nat.mod_lt ((newVal - cachedVal) * 1000000000) hD
    simp only [computeUsageNanoCores]
    omega
  · have hD : 0 < (cpu.timestamp - cs.timestamp).toNat := by omega
    have h1 := Nat.div_add_mod ((newVal - cachedVal) * 1000000000)
      (cpu.timestamp - cs.timestamp).toNat
    have h2 := Nat.mod_lt ((newVal - cachedVal) * 1000000000) hD
    have h3 : (cpu.timestamp - cs.timestamp).toNat *
        ((newVal - cachedVal) * 1000000000 / (cpu.timestamp - cs.timestamp).toNat + 1) =
        (cpu.timestamp - cs.timestamp).toNat *
        ((newVal - cachedVal) * 1000000000 / (cpu.timestamp - cs.timestamp).toNat) +
        (cpu.timestamp - cs.timestamp).toNat := by ring
    simp only [computeUsageNanoCores]
    omega

/-- Witness for `rate_increase_computes_rate`: 6 core-nanoseconds over 100
nanoseconds is 60000000 nanocores. -/
theorem rate_increase_computes_rate_witness :
    ∃ q : Nat,
      getAndUpdateContainerUsageNanoCores
        (some ⟨some ⟨"c", ⟨"n"⟩⟩, some ⟨200, some 10⟩, none, none⟩)
        [("c", some ⟨some ⟨100, some 4⟩, none⟩)] =
        some (some q, insertC [("c", some ⟨some ⟨100, some 4⟩, none⟩)] "c"
          (some ⟨some ⟨200, some 10⟩, some q⟩)) ∧
      ((200 : Int) - 100).toNat * q ≤ (10 - 4) * 1000000000 ∧
      (10 - 4) * 1000000000 < ((200 : Int) - 100).toNat * (q + 1) ∧
      lookupC (insertC [("c", some ⟨some ⟨100, some 4⟩, none⟩)] "c"
        (some ⟨some ⟨200, some 10⟩, some q⟩)) "c" =
        some (some ⟨some ⟨200, some 10⟩, some q⟩) :=
  rate_increase_computes_rate
    ⟨some ⟨"c", ⟨"n"⟩⟩, some ⟨200, some 10⟩, none, none⟩
    ⟨"c", ⟨"n"⟩⟩ ⟨200, some 10⟩ 10
    [("c", some ⟨some ⟨100, some 4⟩, none⟩)]
    ⟨some ⟨100, some 4⟩, none⟩ ⟨100, some 4⟩ 4
    rfl rfl rfl (by decide) rfl rfl (by decide) (by decide)

/-- Counterexample to C2 as stated: with a prior entry whose cumulative (5)
is below the new value (10) but whose timestamp equals the new one, the
elapsed-time precondition fails; the observation returns no rate, yet the
cache is returned unchanged — the entry still holds the old sample, not the
new raw one. -/
theorem elapsed_time_failure_leaves_cache :
    getAndUpdateContainerUsageNanoCores
      (some ⟨some ⟨"c", ⟨"n"⟩⟩, some ⟨100, some 10⟩, none, none⟩)
      [("c", some ⟨some ⟨100, some 5⟩, none⟩)] =
      some (none, [("c", some ⟨some ⟨100, some 5⟩, none⟩)]) ∧
    (⟨some ⟨100, some 5⟩, none⟩ : cpuUsageRecord) ≠ ⟨some ⟨100, some 10⟩, none⟩ := by
  decide

/-- C2 (amended): with updateCache = true, a missing cache entry, a missing
cached cumulative counter, or a counter regression updates the cache with
the new raw sample and returns no rate; a non-positive elapsed time returns
no rate but leaves the cache unchanged. -/
theorem rate_precondition_failure_cache_behavior
    (s : runtimeapi.ContainerStats) (attrs : runtimeapi.ContainerAttributes)
    (cpu : runtimeapi.CpuUsage) (newVal : Nat) (cache : Cache)
    (hattrs : s.attributes = some attrs) (hcpu : s.cpu = some cpu)
    (hval : cpu.usageCoreNanoSeconds = some newVal) :
    (lookupC cache attrs.id = none →
      getAndUpdateContainerUsageNanoCores (some s) cache =
        some (none, insertC cache attrs.id (some ⟨some cpu, none⟩))) ∧
    (∀ r cs, lookupC cache attrs.id = some (some r) → r.stats = some cs →
      cs.usageCoreNanoSeconds = none →
      getAndUpdateContainerUsageNanoCores (some s) cache =
        some (none, insertC cache attrs.id (some ⟨some cpu, none⟩))) ∧
    (∀ r cs cachedVal, lookupC cache attrs.id = some (some r) → r.stats = some cs →
      cs.usageCoreNanoSeconds = some cachedVal → newVal < cachedVal →
      getAndUpdateContainerUsageNanoCores (some s) cache =
        some (none, insertC cache attrs.id (some ⟨some cpu, none⟩))) ∧
    (∀ r cs cachedVal, lookupC cache attrs.id = some (some r) → r.stats = some cs →
      cs.usageCoreNanoSeconds = some cachedVal → cachedVal ≤ newVal →
      cpu.timestamp - cs.timestamp ≤ 0 →
      getAndUpdateContainerUsageNanoCores (some s) cache = some (none, cache)) := by
  refine ⟨?_, ?_, ?_, ?_⟩
  · intro hlook
    simp only [getAndUpdateContainerUsageNanoCores, hattrs, hcpu, hval, hlook]
  · intro r cs hlook hstats hcached
    simp only [getAndUpdateContainerUsageNanoCores, hattrs, hcpu, hval, hlook, hstats,
      hcached]
  · intro r cs cachedVal hlook hstats hcached hlt
    simp only [getAndUpdateContainerUsageNanoCores, hattrs, hcpu, hval, hlook, hstats,
      hcached, if_pos hlt]
  · intro r cs cachedVal hlook hstats hcached hle hdt
    simp only [getAndUpdateContainerUsageNanoCores, hattrs, hcpu, hval, hlook, hstats,
      hcached, if_neg (Nat.not_lt.mpr hle)]
    rw [if_pos hdt]

/-- Witness for `rate_precondition_failure_cache_behavior`: a first
observation of a container (no prior entry) caches the raw sample and
returns no rate. -/
theorem rate_precondition_failure_cache_behavior_witness :
    lookupC [] "c" = none ∧
    getAndUpdateContainerUsageNanoCores
      (some ⟨some ⟨"c", ⟨"n"⟩⟩, some ⟨100, some 10⟩, none, none⟩) [] =
      some (none, insertC [] "c" (some ⟨some ⟨100, some 10⟩, none⟩)) :=
  ⟨by decide,
    (rate_precondition_failure_cache_behavior
      ⟨some ⟨"c", ⟨"n"⟩⟩, some ⟨100, some 10⟩, none, none⟩
      ⟨"c", ⟨"n"⟩⟩ ⟨100, some 10⟩ 10 [] rfl rfl rfl).1 (by decide)⟩

/-- A cache in which no non-nil record carries a nil inner `stats` pointer:
the shape on which the provider's `cached.stats` and `v.stats` dereferences
are safe.  (Nil records themselves are allowed; the sweep deletes them.) -/
def NoNilStats (c : Cache) : Prop :=
  ∀ kv ∈ c, ∀ r : cpuUsageRecord, kv.2 = some r → r.stats ≠ none

/-- A cache every entry of which is a non-nil record with a non-nil inner
`stats` pointer: the shape of everything the update path stores. -/
def CacheWF (c : Cache) : Prop :=
  ∀ kv ∈ c, ∃ (r : cpuUsageRecord) (cs : runtimeapi.CpuUsage),
    kv.2 = some r ∧ r.stats = some cs

lemma noNilStats_of_wf (c : Cache) (h : CacheWF c) : NoNilStats c := by
  intro kv hkv r hr
  obtain ⟨r', cs, hr', hcs⟩ := h kv hkv
  rw [hr] at hr'
  cases hr'
  rw [hcs]
  exact fun h' => by cases h'

lemma cacheWF_insertC (c : Cache) (k : String) (cpu : runtimeapi.CpuUsage)
    (u : Option Nat) (hwf : CacheWF c) :
    CacheWF (insertC c k (some ⟨some cpu, u⟩)) := by
  intro kv hkv
  rcases mem_insertC c k _ kv hkv with h | h
  · exact hwf kv h
  · exact ⟨⟨some cpu, u⟩, cpu, by rw [h], rfl⟩

lemma cleanupOutdatedCaches_spec (now : Int) : ∀ c : Cache, NoNilStats c →
    ∃ c', cleanupOutdatedCaches now c = some c' ∧
      ∀ k v, (k, v) ∈ c' ↔ ((k, v) ∈ c ∧
        ∃ (r : cpuUsageRecord) (cs : runtimeapi.CpuUsage), v = some r ∧
          r.stats = some cs ∧ ¬ now - cs.timestamp > defaultCachePeriod)
  | [], _ => ⟨[], rfl, by simp⟩
  | (k0, v0) :: t, h => by
    have ht : NoNilStats t := fun kv hkv => h kv (List.mem_cons_of_mem _ hkv)
    obtain ⟨t', ht1, ht2⟩ := cleanupOutdatedCaches_spec now t ht
    rcases v0 with _ | r
    · refine ⟨t', by simp [cleanupOutdatedCaches, cleanupKeeps, ht1], ?_⟩
      intro k v
      rw [ht2 k v]
      constructor
      · rintro ⟨hm, hp⟩
        exact ⟨List.mem_cons_of_mem _ hm, hp⟩
      · rintro ⟨hm, hp⟩
        rcases List.mem_cons.mp hm with he | hm'
        · obtain ⟨r, cs, hr, _⟩ := hp
          rw [(Prod.mk.injEq .. ▸ he : k = k0 ∧ v = none).2] at hr
          cases hr
        · exact ⟨hm', hp⟩
    · have hr := h (k0, some r) (List.mem_cons_self _ _) r rfl
      rcases hcs : r.stats with _ | cs
      · exact absurd hcs hr
      by_cases hstale : now - cs.timestamp > defaultCachePeriod
      · have hk : cleanupKeeps now (some r) = some false := by
          simp [cleanupKeeps, hcs, hstale]
        refine ⟨t', by simp [cleanupOutdatedCaches, hk, ht1], ?_⟩
        intro k v
        rw [ht2 k v]
        constructor
        · rintro ⟨hm, hp⟩
          exact ⟨List.mem_cons_of_mem _ hm, hp⟩
        · rintro ⟨hm, hp⟩
          rcases List.mem_cons.mp hm with he | hm'
          · obtain ⟨r', cs', hr', hcs', hfresh⟩ := hp
            obtain ⟨hek, hev⟩ := Prod.mk.injEq .. ▸ he
            rw [hev] at hr'
            cases hr'
            rw [hcs] at hcs'
            cases hcs'
            exact absurd hstale hfresh
          · exact ⟨hm', hp⟩
      · have hk : cleanupKeeps now (some r) = some true := by
          simp [cleanupKeeps, hcs, hstale]
        refine ⟨(k0, some r) :: t', by simp [cleanupOutdatedCaches, hk, ht1], ?_⟩
        intro k v
        constructor
        · intro hm
          rcases List.mem_cons.mp hm with he | hm'
          · obtain ⟨hek, hev⟩ := Prod.mk.injEq .. ▸ he
            subst hek
            subst hev
            exact ⟨List.mem_cons_self _ _, r, cs, rfl, hcs, hstale⟩
          · obtain ⟨hmt, hp⟩ := (ht2 k v).mp hm'
            exact ⟨List.mem_cons_of_mem _ hmt, hp⟩
        · rintro ⟨hm, hp⟩
          rcases List.mem_cons.mp hm with he | hm'
          · obtain ⟨hek, hev⟩ := Prod.mk.injEq .. ▸ he
            subst hek
            subst hev
            exact List.mem_cons_self _ _
          · exact List.mem_cons_of_mem _ ((ht2 k v).mpr ⟨hm', hp⟩)

/-- C7: the pass-end eviction sweep removes exactly the malformed entries
(nil stored record) and the entries whose last-sample timestamp is more than
`defaultCachePeriod` (10 minutes, in nanoseconds) older than `now`, and
leaves every other entry in place.  The hypothesis excludes the one cache
shape on which the sweep's `v.stats.Timestamp` dereference faults, a shape
the provider never creates (see `update_path_cache_wellformed`). -/
theorem cleanup_evicts_stale_and_malformed (now : Int) (c : Cache)
    (h : NoNilStats c) :
    defaultCachePeriod = 600000000000 ∧
    ∃ c', cleanupOutdatedCaches now c = some c' ∧
      ∀ k v, (k, v) ∈ c' ↔ ((k, v) ∈ c ∧
        ∃ (r : cpuUsageRecord) (cs : runtimeapi.CpuUsage), v = some r ∧
          r.stats = some cs ∧ ¬ now - cs.timestamp > defaultCachePeriod) :=
  ⟨by decide, cleanupOutdatedCaches_spec now c h⟩

/-- Witness for `cleanup_evicts_stale_and_malformed` on a cache holding a
nil record, a stale entry and a fresh one. -/
theorem cleanup_evicts_stale_and_malformed_witness :
    NoNilStats [("a", none), ("b", some ⟨some ⟨0, some 1⟩, none⟩),
      ("d", some ⟨some ⟨900000000000, some 5⟩, some 2⟩)] ∧
    (defaultCachePeriod = 600000000000 ∧
      ∃ c', cleanupOutdatedCaches 1000000000000
          [("a", none), ("b", some ⟨some ⟨0, some 1⟩, none⟩),
           ("d", some ⟨some ⟨900000000000, some 5⟩, some 2⟩)] = some c' ∧
        ∀ k v, (k, v) ∈ c' ↔ ((k, v) ∈
            ([("a", none), ("b", some ⟨some ⟨0, some 1⟩, none⟩),
              ("d", some ⟨some ⟨900000000000, some 5⟩, some 2⟩)] : Cache) ∧
          ∃ (r : cpuUsageRecord) (cs : runtimeapi.CpuUsage), v = some r ∧
            r.stats = some cs ∧ ¬ 1000000000000 - cs.timestamp > defaultCachePeriod)) :=
  ⟨by simp [NoNilStats],
    cleanup_evicts_stale_and_malformed 1000000000000 _ (by simp [NoNilStats])⟩

/-- C10: every record the update path stores in the cache is a non-nil
record whose inner stats pointer is non-nil; consequently, on any cache of
that shape (in particular one populated only through this path) the update
path never faults, preserves the shape, and the eviction sweep's
dereference of the cached record never faults either. -/
theorem update_path_cache_wellformed (stats : Option runtimeapi.ContainerStats)
    (now : Int) (c : Cache) (hwf : CacheWF c) :
    ∃ u c', getAndUpdateContainerUsageNanoCores stats c = some (u, c') ∧ CacheWF c' ∧
      ∃ c'', cleanupOutdatedCaches now c' = some c'' := by
  have base : ∀ c0 : Cache, CacheWF c0 → ∃ c'', cleanupOutdatedCaches now c0 = some c'' := by
    intro c0 h0
    obtain ⟨c'', hc, _⟩ := cleanupOutdatedCaches_spec now c0 (noNilStats_of_wf c0 h0)
    exact ⟨c'', hc⟩
  match stats with
  | none => exact ⟨none, c, rfl, hwf, base c hwf⟩
  | some s =>
    rcases hattrs : s.attributes with _ | attrs
    · exact ⟨none, c, by simp [getAndUpdateContainerUsageNanoCores, hattrs],
        hwf, base c hwf⟩
    rcases hcpu : s.cpu with _ | cpu
    · exact ⟨none, c, by simp [getAndUpdateContainerUsageNanoCores, hattrs, hcpu],
        hwf, base c hwf⟩
    rcases hval : cpu.usageCoreNanoSeconds with _ | newVal
    · exact ⟨none, c, by simp [getAndUpdateContainerUsageNanoCores, hattrs, hcpu, hval],
        hwf, base c hwf⟩
    rcases hlook : lookupC c attrs.id with _ | ov
    · exact ⟨none, insertC c attrs.id (some ⟨some cpu, none⟩),
        by simp [getAndUpdateContainerUsageNanoCores, hattrs, hcpu, hval, hlook],
        cacheWF_insertC c attrs.id cpu none hwf,
        base _ (cacheWF_insertC c attrs.id cpu none hwf)⟩
    rcases ov with _ | cached
    · obtain ⟨r, cs, hr, _⟩ := hwf (attrs.id, none) (lookupC_mem c attrs.id none hlook)
      cases hr
    rcases hcs : cached.stats with _ | cachedStats
    · obtain ⟨r, cs, hr, hcs'⟩ :=
        hwf (attrs.id, some cached) (lookupC_mem c attrs.id (some cached) hlook)
      injection hr with hr2
      subst hr2
      rw [hcs] at hcs'
      cases hcs'
    rcases hcv : cachedStats.usageCoreNanoSeconds with _ | cachedVal
    · exact ⟨none, insertC c attrs.id (some ⟨some cpu, none⟩),
        by simp [getAndUpdateContainerUsageNanoCores, hattrs, hcpu, hval, hlook, hcs, hcv],
        cacheWF_insertC c attrs.id cpu none hwf,
        base _ (cacheWF_insertC c attrs.id cpu none hwf)⟩
    by_cases hlt : newVal < cachedVal
    · exact ⟨none, insertC c attrs.id (some ⟨some cpu, none⟩),
        by simp only [getAndUpdateContainerUsageNanoCores, hattrs, hcpu, hval, hlook,
          hcs, hcv, if_pos hlt],
        cacheWF_insertC c attrs.id cpu none hwf,
        base _ (cacheWF_insertC c attrs.id cpu none hwf)⟩
    by_cases hdt : cpu.timestamp - cachedStats.timestamp ≤ 0
    · refine ⟨none, c, ?_, hwf, base c hwf⟩
      simp only [getAndUpdateContainerUsageNanoCores, hattrs, hcpu, hval, hlook,
        hcs, hcv, if_neg hlt]
      rw [if_pos hdt]
    · refine ⟨some (computeUsageNanoCores (newVal - cachedVal)
          (cpu.timestamp - cachedStats.timestamp)),
        insertC c attrs.id (some ⟨some cpu, some (computeUsageNanoCores
          (newVal - cachedVal) (cpu.timestamp - cachedStats.timestamp))⟩), ?_,
        cacheWF_insertC c attrs.id cpu _ hwf,
        base _ (cacheWF_insertC c attrs.id cpu _ hwf)⟩
      simp only [getAndUpdateContainerUsageNanoCores, hattrs, hcpu, hval, hlook,
        hcs, hcv, if_neg hlt]
      rw [if_neg hdt]

/-- Witness for `update_path_cache_wellformed`: a first observation on the
empty cache. -/
theorem update_path_cache_wellformed_witness :
    CacheWF [] ∧
    ∃ u c', getAndUpdateContainerUsageNanoCores
        (some ⟨some ⟨"c", ⟨"n"⟩⟩, some ⟨100, some 10⟩, none, none⟩) [] =
        some (u, c') ∧ CacheWF c' ∧
      ∃ c'', cleanupOutdatedCaches 0 c' = some c'' :=
  ⟨by simp [CacheWF],
    update_path_cache_wellformed
      (some ⟨some ⟨"c", ⟨"n"⟩⟩, some ⟨100, some 10⟩, none, none⟩) 0 []
      (by simp [CacheWF])⟩

lemma mem_firstKeys {K : Type} [DecidableEq K] : ∀ (l : List K) (k : K),
    k ∈ firstKeys l ↔ k ∈ l
  | [], k => by simp [firstKeys]
  | k0 :: t, k => by
    simp only [firstKeys, List.mem_cons]
    constructor
    · intro h
      rcases h with h | h
      · exact Or.inl h
      · have := (mem_firstKeys (t.filter (fun x => x ≠ k0)) k).mp h
        simp only [List.mem_filter] at this
        exact Or.inr this.1
    · intro h
      rcases h with h | h
      · exact Or.inl h
      · by_cases hk : k = k0
        · exact Or.inl hk
        · refine Or.inr ((mem_firstKeys (t.filter (fun x => x ≠ k0)) k).mpr ?_)
          simp only [List.mem_filter]
          exact ⟨h, by simpa using hk⟩
termination_by l _ => l.length
decreasing_by
  all_goals simp only [List.length_cons]
  all_goals exact Nat.lt_succ_of_le (List.length_filter_le _ _)

lemma nodup_firstKeys {K : Type} [DecidableEq K] : ∀ (l : List K),
    (firstKeys l).Nodup
  | [] => by simp [firstKeys]
  | k0 :: t => by
    simp only [firstKeys]
    refine List.nodup_cons.mpr ⟨?_, nodup_firstKeys (t.filter (fun x => x ≠ k0))⟩
    intro hmem
    have := (mem_firstKeys (t.filter (fun x => x ≠ k0)) k0).mp hmem
    simp [List.mem_filter] at this
termination_by l => l.length
decreasing_by
  simp only [List.length_cons]
  exact Nat.lt_succ_of_le (List.length_filter_le _ _)

lemma filter_flatMap_groups {α K : Type} (f : K → List α) (p : α → Bool) :
    ∀ (keys : List K), (keys.flatMap f).filter p = keys.flatMap (fun k => (f k).filter p)
  | [] => rfl
  | k :: t => by
    simp only [List.flatMap_cons, List.filter_append, filter_flatMap_groups f p t]

lemma flatMap_eq_nil_of_forall {α K : Type} (g : K → List α) :
    ∀ (keys : List K), (∀ k ∈ keys, g k = []) → keys.flatMap g = []
  | [], _ => rfl
  | k :: t, h => by
    simp only [List.flatMap_cons, h k (List.mem_cons_self _ _),
      flatMap_eq_nil_of_forall g t (fun k' hk' => h k' (List.mem_cons_of_mem _ hk')),
      List.nil_append]

lemma flatMap_eq_single {α K : Type} (g : K → List α) :
    ∀ (keys : List K), ∀ k0 ∈ keys, keys.Nodup →
      (∀ k' ∈ keys, k' ≠ k0 → g k' = []) → keys.flatMap g = g k0
  | [], k0, hk, _, _ => absurd hk (by simp)
  | k :: t, k0, hk, hnd, hz => by
    rcases List.mem_cons.mp hk with he | hm
    · subst he
      have : t.flatMap g = [] := by
        refine flatMap_eq_nil_of_forall g t (fun k' hk' => ?_)
        refine hz k' (List.mem_cons_of_mem _ hk') (fun he' => ?_)
        subst he'
        exact (List.nodup_cons.mp hnd).1 hk'
      simp [List.flatMap_cons, this]
    · have hne : k ≠ k0 := by
        intro he
        subst he
        exact (List.nodup_cons.mp hnd).1 hm
      simp only [List.flatMap_cons, hz k (List.mem_cons_self _ _) hne, List.nil_append]
      exact flatMap_eq_single g t k0 hm (List.nodup_cons.mp hnd).2 
        (fun k' hk' => hz k' (List.mem_cons_of_mem _ hk'))

lemma pairwise_le_getLast {α : Type} (f : α → Int) :
    ∀ (g : List α), g.Pairwise (fun a b => f a ≤ f b) → ∀ (h : g ≠ []),
      ∀ x ∈ g, f x ≤ f (g.getLast h)
  | [], _, h, _, _ => absurd rfl h
  | [a], _, _, x, hx => by
    simp only [List.mem_singleton] at hx
    subst hx
    exact le_refl _
  | a :: b :: t, hp, _, x, hx => by
    have hp1 := List.pairwise_cons.mp hp
    rw [List.getLast_cons (List.cons_ne_nil b t)]
    rcases List.mem_cons.mp hx with he | hx'
    · subst he
      exact hp1.1 _ (List.getLast_mem (List.cons_ne_nil b t))
    · exact pairwise_le_getLast f (b :: t) hp1.2 (List.cons_ne_nil b t) x hx'

lemma selectPodGroup_subset (refs : List runtimeapi.PodSandbox) :
    ∀ x ∈ selectPodGroup refs, x ∈ refs := by
  intro x hx
  simp only [selectPodGroup] at hx
  split at hx
  · exact hx
  · split at hx
    · split at hx
      · exact absurd hx (List.not_mem_nil x)
      · rename_i heq
        simp only [List.mem_singleton] at hx
        subst hx
        exact List.mem_of_mem_getLast? (by simp [heq])
    · exact (List.mem_filter.mp hx).1

lemma sorted_pods_pairwise (pods : List runtimeapi.PodSandbox) :
    (pods.mergeSort (fun a b => a.createdAt ≤ b.createdAt)).Pairwise
      (fun a b => a.createdAt ≤ b.createdAt) := by
  have h := @List.sorted_mergeSort runtimeapi.PodSandbox
    (fun a b => a.createdAt ≤ b.createdAt)
    (by
      intro a b c h1 h2
      simp only [decide_eq_true_eq] at h1 h2 ⊢
      omega)
    (by
      intro a b
      simp only [Bool.or_eq_true, decide_eq_true_eq]
      omega)
    pods
  exact h.imp (fun hab => of_decide_eq_true hab)

lemma removeTerminatedPods_filter_key (pods : List runtimeapi.PodSandbox)
    (k : PodReference)
    (hne : (pods.mergeSort (fun a b => a.createdAt ≤ b.createdAt)).filter
      (fun p => podRefKey p = k) ≠ []) :
    (removeTerminatedPods pods).filter (fun p => podRefKey p = k) =
      selectPodGroup ((pods.mergeSort (fun a b => a.createdAt ≤ b.createdAt)).filter
        (fun p => podRefKey p = k)) := by
  unfold removeTerminatedPods
  rw [filter_flatMap_groups]
  have hkmem : k ∈ firstKeys ((pods.mergeSort
      (fun a b => a.createdAt ≤ b.createdAt)).map podRefKey) := by
    rw [mem_firstKeys, List.mem_map]
    rcases hg : (pods.mergeSort (fun a b => a.createdAt ≤ b.createdAt)).filter
        (fun p => podRefKey p = k) with _ | ⟨p, t⟩
    · exact absurd hg hne
    · have hp : p ∈ (pods.mergeSort (fun a b => a.createdAt ≤ b.createdAt)).filter
          (fun p => podRefKey p = k) := by
        rw [hg]
        exact List.mem_cons_self _ _
      have := List.mem_filter.mp hp
      exact ⟨p, this.1, of_decide_eq_true this.2⟩
  rw [flatMap_eq_single _ _ k hkmem (nodup_firstKeys _) ?_]
  · rw [List.filter_eq_self]
    intro a ha
    have hk := (List.mem_filter.mp (selectPodGroup_subset _ a ha)).2
    exact hk
  · intro k' _ hk'
    rw [List.filter_eq_nil_iff]
    intro a ha
    have hk := of_decide_eq_true (List.mem_filter.mp (selectPodGroup_subset _ a ha)).2
    simp only [decide_eq_true_eq]
    rw [hk]
    exact fun he => hk' he

/-- C5: pod dedup groups sandboxes by (Name, Namespace) with UID ignored; a
group with exactly one member is kept as is; a group with several members
and at least one SANDBOX_READY member keeps exactly the ready members (up to
order); a group with several members and none ready keeps exactly one
member, which has maximal creation time in the group. -/
theorem removeTerminatedPods_dedup (pods : List runtimeapi.PodSandbox) (k : PodReference) :
    ((pods.filter (fun p => podRefKey p = k)).length = 1 →
      (removeTerminatedPods pods).filter (fun p => podRefKey p = k) =
        pods.filter (fun p => podRefKey p = k)) ∧
    (2 ≤ (pods.filter (fun p => podRefKey p = k)).length →
      (∃ p ∈ pods.filter (fun p => podRefKey p = k),
        p.state = runtimeapi.PodSandboxState.SANDBOX_READY) →
      ((removeTerminatedPods pods).filter (fun p => podRefKey p = k)).Perm
        ((pods.filter (fun p => podRefKey p = k)).filter
          (fun p => p.state = runtimeapi.PodSandboxState.SANDBOX_READY))) ∧
    (2 ≤ (pods.filter (fun p => podRefKey p = k)).length →
      (∀ p ∈ pods.filter (fun p => podRefKey p = k),
        p.state ≠ runtimeapi.PodSandboxState.SANDBOX_READY) →
      ∃ m, (removeTerminatedPods pods).filter (fun p => podRefKey p = k) = [m] ∧
        m ∈ pods.filter (fun p => podRefKey p = k) ∧
        ∀ p ∈ pods.filter (fun p => podRefKey p = k), p.createdAt ≤ m.createdAt) := by
  have hperm : ((pods.mergeSort (fun a b => a.createdAt ≤ b.createdAt)).filter
      (fun p => podRefKey p = k)).Perm (pods.filter (fun p => podRefKey p = k)) :=
    List.Perm.filter _ (List.mergeSort_perm pods _)
  refine ⟨?_, ?_, ?_⟩
  · intro hlen
    obtain ⟨a, ha⟩ := List.length_eq_one.mp hlen
    have hSG : (pods.mergeSort (fun a b => a.createdAt ≤ b.createdAt)).filter
        (fun p => podRefKey p = k) = [a] := List.perm_singleton.mp (ha ▸ hperm)
    have hne : (pods.mergeSort (fun a b => a.createdAt ≤ b.createdAt)).filter
        (fun p => podRefKey p = k) ≠ [] := by
      rw [hSG]
      exact List.cons_ne_nil a []
    rw [removeTerminatedPods_filter_key pods k hne, hSG, ha]
    simp [selectPodGroup]
  · intro hlen hex
    have hlenSG : 2 ≤ ((pods.mergeSort (fun a b => a.createdAt ≤ b.createdAt)).filter
        (fun p => podRefKey p = k)).length := by
      rw [hperm.length_eq]
      exact hlen
    have hne : (pods.mergeSort (fun a b => a.createdAt ≤ b.createdAt)).filter
        (fun p => podRefKey p = k) ≠ [] := by
      intro h
      rw [h] at hlenSG
      simp at hlenSG
    rw [removeTerminatedPods_filter_key pods k hne]
    obtain ⟨p, hpG, hpr⟩ := hex
    have hpSG : p ∈ (pods.mergeSort (fun a b => a.createdAt ≤ b.createdAt)).filter
        (fun p => podRefKey p = k) := hperm.mem_iff.mpr hpG
    have hready_ne : ((pods.mergeSort (fun a b => a.createdAt ≤ b.createdAt)).filter
        (fun p => podRefKey p = k)).filter
        (fun p => p.state = runtimeapi.PodSandboxState.SANDBOX_READY) ≠ [] := by
      intro h
      rw [List.filter_eq_nil_iff] at h
      exact h p hpSG (by simp [hpr])
    simp only [selectPodGroup]
    rw [if_neg (by omega : ¬ ((pods.mergeSort (fun a b => a.createdAt ≤ b.createdAt)).filter
      (fun p => podRefKey p = k)).length = 1)]
    rw [if_neg (by simpa [List.isEmpty_eq_true] using hready_ne)]
    exact hperm.filter _
  · intro hlen hnone
    have hlenSG : 2 ≤ ((pods.mergeSort (fun a b => a.createdAt ≤ b.createdAt)).filter
        (fun p => podRefKey p = k)).length := by
      rw [hperm.length_eq]
      exact hlen
    have hne : (pods.mergeSort (fun a b => a.createdAt ≤ b.createdAt)).filter
        (fun p => podRefKey p = k) ≠ [] := by
      intro h
      rw [h] at hlenSG
      simp at hlenSG
    have hready_nil : ((pods.mergeSort (fun a b => a.createdAt ≤ b.createdAt)).filter
        (fun p => podRefKey p = k)).filter
        (fun p => p.state = runtimeapi.PodSandboxState.SANDBOX_READY) = [] := by
      rw [List.filter_eq_nil_iff]
      intro a haSG
      simp only [decide_eq_true_eq]
      exact hnone a (hperm.mem_iff.mp haSG)
    refine ⟨((pods.mergeSort (fun a b => a.createdAt ≤ b.createdAt)).filter
      (fun p => podRefKey p = k)).getLast hne, ?_, ?_, ?_⟩
    · rw [removeTerminatedPods_filter_key pods k hne]
      simp only [selectPodGroup]
      rw [if_neg (by omega : ¬ ((pods.mergeSort (fun a b => a.createdAt ≤ b.createdAt)).filter
        (fun p => podRefKey p = k)).length = 1)]
      rw [if_pos (by simp [hready_nil, List.isEmpty_eq_true])]
      rw [List.getLast?_eq_getLast _ hne]
    · exact hperm.mem_iff.mp (List.getLast_mem hne)
    · intro p hpG
      exact pairwise_le_getLast (fun x => x.createdAt) _
        (List.Pairwise.filter _ (sorted_pods_pairwise pods)) hne p
        (hperm.mem_iff.mpr hpG)

/-- Witness for `removeTerminatedPods_dedup`: two terminated sandboxes with
identical (Name, Namespace); dedup keeps exactly the most recently created
one. -/
theorem removeTerminatedPods_dedup_witness :
    2 ≤ (([⟨"s1", ⟨"n", "u1", "ns"⟩, 1, runtimeapi.PodSandboxState.SANDBOX_NOTREADY⟩,
           ⟨"s2", ⟨"n", "u2", "ns"⟩, 2, runtimeapi.PodSandboxState.SANDBOX_NOTREADY⟩] :
          List runtimeapi.PodSandbox).filter
        (fun p => podRefKey p = ⟨"n", "", "ns"⟩)).length ∧
    (∀ p ∈ ([⟨"s1", ⟨"n", "u1", "ns"⟩, 1, runtimeapi.PodSandboxState.SANDBOX_NOTREADY⟩,
             ⟨"s2", ⟨"n", "u2", "ns"⟩, 2, runtimeapi.PodSandboxState.SANDBOX_NOTREADY⟩] :
            List runtimeapi.PodSandbox).filter
        (fun p => podRefKey p = ⟨"n", "", "ns"⟩),
      p.state ≠ runtimeapi.PodSandboxState.SANDBOX_READY) ∧
    ∃ m, (removeTerminatedPods
        [⟨"s1", ⟨"n", "u1", "ns"⟩, 1, runtimeapi.PodSandboxState.SANDBOX_NOTREADY⟩,
         ⟨"s2", ⟨"n", "u2", "ns"⟩, 2, runtimeapi.PodSandboxState.SANDBOX_NOTREADY⟩]).filter
        (fun p => podRefKey p = ⟨"n", "", "ns"⟩) = [m] ∧
      m ∈ ([⟨"s1", ⟨"n", "u1", "ns"⟩, 1, runtimeapi.PodSandboxState.SANDBOX_NOTREADY⟩,
            ⟨"s2", ⟨"n", "u2", "ns"⟩, 2, runtimeapi.PodSandboxState.SANDBOX_NOTREADY⟩] :
           List runtimeapi.PodSandbox).filter
        (fun p => podRefKey p = ⟨"n", "", "ns"⟩) ∧
      ∀ p ∈ ([⟨"s1", ⟨"n", "u1", "ns"⟩, 1, runtimeapi.PodSandboxState.SANDBOX_NOTREADY⟩,
              ⟨"s2", ⟨"n", "u2", "ns"⟩, 2, runtimeapi.PodSandboxState.SANDBOX_NOTREADY⟩] :
             List runtimeapi.PodSandbox).filter
        (fun p => podRefKey p = ⟨"n", "", "ns"⟩), p.createdAt ≤ m.createdAt :=
  ⟨by decide, by decide,
    (removeTerminatedPods_dedup
      [⟨"s1", ⟨"n", "u1", "ns"⟩, 1, runtimeapi.PodSandboxState.SANDBOX_NOTREADY⟩,
       ⟨"s2", ⟨"n", "u2", "ns"⟩, 2, runtimeapi.PodSandboxState.SANDBOX_NOTREADY⟩]
      ⟨"n", "", "ns"⟩).2.2 (by decide) (by decide)⟩

lemma flatMap_congr_mem {α K : Type} (f g : K → List α) :
    ∀ (keys : List K), (∀ k ∈ keys, f k = g k) → keys.flatMap f = keys.flatMap g
  | [], _ => rfl
  | k :: t, h => by
    simp only [List.flatMap_cons, h k (List.mem_cons_self _ _),
      flatMap_congr_mem f g t (fun k' hk' => h k' (List.mem_cons_of_mem _ hk'))]

lemma flatMap_groups_perm {α K : Type} [DecidableEq K] (key : α → K) :
    ∀ (keys : List K) (l : List α), keys.Nodup → (∀ x ∈ l, key x ∈ keys) →
      (keys.flatMap (fun k => l.filter (fun x => key x = k))).Perm l
  | [], l, _, hall => by
    have hl : l = [] := by
      cases l with
      | nil => rfl
      | cons a t => exact absurd (hall a (List.mem_cons_self _ _)) (List.not_mem_nil _)
    subst hl
    simp
  | k :: t, l, hnd, hall => by
    rw [List.flatMap_cons]
    have hstep : ∀ k' ∈ t, l.filter (fun x => key x = k') =
        (l.filter (fun x => ! decide (key x = k))).filter (fun x => key x = k') := by
      intro k' hk'
      have hne : k' ≠ k := fun he => (List.nodup_cons.mp hnd).1 (he ▸ hk')
      rw [List.filter_filter]
      refine List.filter_congr (fun x _ => ?_)
      by_cases hx' : key x = k'
      · have hxk : ¬ key x = k := by
          rw [hx']
          exact hne
        simp [hx', hxk, hne]
      · simp [hx']
    have hIH : (t.flatMap (fun k' => (l.filter (fun x => ! decide (key x = k))).filter
        (fun x => key x = k'))).Perm (l.filter (fun x => ! decide (key x = k))) := by
      refine flatMap_groups_perm key t (l.filter (fun x => ! decide (key x = k)))
        (List.nodup_cons.mp hnd).2 (fun x hx => ?_)
      have hm := List.mem_filter.mp hx
      have hxk : key x ≠ k := by
        intro he
        simp [he] at hm
      rcases List.mem_cons.mp (hall x hm.1) with he | hmem
      · exact absurd he hxk
      · exact hmem
    rw [flatMap_congr_mem _ _ t hstep]
    exact (List.Perm.append_left _ hIH).trans
      (List.filter_append_perm (fun x => key x = k) l)

/-- C6: container dedup keeps exactly the CONTAINER_RUNNING containers (up
to order): per logical identity (UID-less pod reference plus container-name
label) only running members are kept, and an all-exited group contributes
nothing — there is no fallback to the most recent member. -/
theorem removeTerminatedContainers_dedup (containers : List runtimeapi.Container) :
    (removeTerminatedContainers containers).Perm
      (containers.filter
        (fun c => c.state = runtimeapi.ContainerState.CONTAINER_RUNNING)) ∧
    ∀ k : containerID,
      ((removeTerminatedContainers containers).filter
          (fun c => containerKey c = k)).Perm
        ((containers.filter (fun c => containerKey c = k)).filter
          (fun c => c.state = runtimeapi.ContainerState.CONTAINER_RUNNING)) := by
  have hmain : (removeTerminatedContainers containers).Perm
      (containers.filter
        (fun c => c.state = runtimeapi.ContainerState.CONTAINER_RUNNING)) := by
    unfold removeTerminatedContainers
    have hcomm : ∀ k : containerID,
        ((containers.mergeSort (fun a b => a.createdAt ≤ b.createdAt)).filter
          (fun c => containerKey c = k)).filter
          (fun c => c.state = runtimeapi.ContainerState.CONTAINER_RUNNING) =
        ((containers.mergeSort (fun a b => a.createdAt ≤ b.createdAt)).filter
          (fun c => c.state = runtimeapi.ContainerState.CONTAINER_RUNNING)).filter
          (fun c => containerKey c = k) := by
      intro k
      rw [List.filter_filter, List.filter_filter]
      exact List.filter_congr (fun x _ => Bool.and_comm _ _)
    rw [flatMap_congr_mem _ _ _ (fun k _ => hcomm k)]
    have hsub : ∀ x ∈ (containers.mergeSort (fun a b => a.createdAt ≤ b.createdAt)).filter
        (fun c => c.state = runtimeapi.ContainerState.CONTAINER_RUNNING),
        containerKey x ∈ firstKeys ((containers.mergeSort
          (fun a b => a.createdAt ≤ b.createdAt)).map containerKey) := by
      intro x hx
      rw [mem_firstKeys]
      exact List.mem_map_of_mem containerKey (List.mem_filter.mp hx).1
    refine (flatMap_groups_perm containerKey _ _ (nodup_firstKeys _) hsub).trans ?_
    exact List.Perm.filter _ (List.mergeSort_perm containers _)
  refine ⟨hmain, fun k => ?_⟩
  have h2 := List.Perm.filter (fun c => containerKey c = k) hmain
  have hc : ((containers.filter
      (fun c => c.state = runtimeapi.ContainerState.CONTAINER_RUNNING)).filter
      (fun c => containerKey c = k)) =
      ((containers.filter (fun c => containerKey c = k)).filter
        (fun c => c.state = runtimeapi.ContainerState.CONTAINER_RUNNING)) := by
    rw [List.filter_filter, List.filter_filter]
    exact List.filter_congr (fun x _ => Bool.and_comm _ _)
  rw [hc] at h2
  exact h2

lemma makeContainerStats_false_cache (env : Env) (now : Int)
    (stats : runtimeapi.ContainerStats) (container : runtimeapi.Container)
    (rootFs : FsInfo) (fsMap : FsMap) (meta : runtimeapi.PodSandboxMetadata)
    (infos : CadvisorInfos) (cache : Cache)
    (cs : ContainerStats) (fsMap2 : FsMap) (cache2 : Cache)
    (h : makeContainerStats env now stats container rootFs fsMap meta false infos cache =
      some (cs, fsMap2, cache2)) : cache2 = cache := by
  rcases hattrs : stats.attributes with _ | attrs
  · simp [makeContainerStats, hattrs] at h
  rcases hcpu : stats.cpu with _ | cpu
  · simp only [makeContainerStats, hattrs, hcpu] at h
    have := congrArg (fun x => (Prod.snd (Prod.snd x))) (Option.some.inj h)
    exact this.symm
  · rcases hg : getContainerUsageNanoCores (some stats) cache with _ | u
    · simp only [makeContainerStats, hattrs, hcpu] at h
      rw [if_neg (by simp : ¬ false = true)] at h
      rw [hg] at h
      cases h
    · simp only [makeContainerStats, hattrs, hcpu] at h
      rw [if_neg (by simp : ¬ false = true)] at h
      rw [hg] at h
      have := congrArg (fun x => (Prod.snd (Prod.snd x))) (Option.some.inj h)
      exact this.symm

lemma listPodStatsStep_false_cache (env : Env) (now : Int) (rootFs : FsInfo)
    (cMap : List (String × runtimeapi.Container))
    (sMap : List (String × runtimeapi.PodSandbox))
    (caInfos allInfos : CadvisorInfos) (net : String → Option NetworkStats)
    (st st' : LoopState) (s : runtimeapi.ContainerStats)
    (h : listPodStatsStep env now rootFs cMap sMap caInfos allInfos net false st s =
      some st') : st'.2.2 = st.2.2 := by
  obtain ⟨m, fsMap, cache⟩ := st
  rcases hattrs : s.attributes with _ | attrs
  · simp [listPodStatsStep, hattrs] at h
  rcases hc : lookupA cMap attrs.id with _ | container
  · simp only [listPodStatsStep, hattrs, hc] at h
    cases Option.some.inj h
    rfl
  rcases hsb : lookupA sMap container.podSandboxId with _ | podSandbox
  · simp only [listPodStatsStep, hattrs, hc, hsb] at h
    cases Option.some.inj h
    rfl
  rcases hmk : makeContainerStats env now s container rootFs fsMap podSandbox.metadata
      false allInfos cache with _ | ⟨cs, fsMap2, cache2⟩
  · simp only [listPodStatsStep, hattrs, hc, hsb, hmk] at h
    cases h
  · simp only [listPodStatsStep, hattrs, hc, hsb, hmk] at h
    have hc2 := makeContainerStats_false_cache env now s container rootFs fsMap
      podSandbox.metadata allInfos cache cs fsMap2 cache2 hmk
    rw [← Option.some.inj h]
    exact hc2

lemma runLoop_false_cache (env : Env) (now : Int) (rootFs : FsInfo)
    (cMap : List (String × runtimeapi.Container))
    (sMap : List (String × runtimeapi.PodSandbox))
    (caInfos allInfos : CadvisorInfos) (net : String → Option NetworkStats) :
    ∀ (l : List runtimeapi.ContainerStats) (st st' : LoopState),
      runListPodStatsLoop env now rootFs cMap sMap caInfos allInfos net false st l =
        some st' → st'.2.2 = st.2.2
  | [], st, st', h => by
    cases Option.some.inj h
    rfl
  | s :: rest, st, st', h => by
    simp only [runListPodStatsLoop] at h
    rcases hs : listPodStatsStep env now rootFs cMap sMap caInfos allInfos net false st s
        with _ | st1
    · rw [hs] at h
      cases h
    · rw [hs] at h
      have h1 := listPodStatsStep_false_cache env now rootFs cMap sMap caInfos allInfos
        net st st1 s hs
      have h2 := runLoop_false_cache env now rootFs cMap sMap caInfos allInfos net
        rest st1 st' h
      rw [h2, h1]

lemma cleanup_subset (now : Int) : ∀ (c c' : Cache),
    cleanupOutdatedCaches now c = some c' → ∀ kv ∈ c', kv ∈ c
  | [], c', h, kv, hkv => by
    cases Option.some.inj h
    cases hkv
  | (k0, v0) :: t, c', h, kv, hkv => by
    simp only [cleanupOutdatedCaches] at h
    rcases hk : cleanupKeeps now v0 with _ | b
    · rw [hk] at h
      cases h
    rcases b with _ | _
    · rw [hk] at h
      exact List.mem_cons_of_mem _ (cleanup_subset now t c' h kv hkv)
    · rw [hk] at h
      rcases ht : cleanupOutdatedCaches now t with _ | t'
      · rw [ht] at h
        cases h
      · rw [ht] at h
        cases Option.some.inj h
        rcases List.mem_cons.mp hkv with he | hm
        · exact he ▸ List.mem_cons_self _ _
        · exact List.mem_cons_of_mem _ (cleanup_subset now t t' ht kv hm)

/-- Counterexample to C1 as stated: ListPodStats (computeRate = false) is
not read-only on the rate cache.  With all fetches succeeding and empty, a
cache holding one entry whose sample is older than 10 minutes comes back
empty: the pass-end eviction sweep removed the entry. -/
theorem listPodStats_readonly_perturbs_cache :
    ListPodStats trivialEnv 1000000000000 (Except.ok ⟨0, 0, none, none⟩)
      (Except.ok []) (Except.ok []) (Except.ok []) (Except.ok [])
      (Except.ok (fun _ => none)) [("c", some ⟨some ⟨0, some 1⟩, some 1⟩)] =
      some (Except.ok [], []) ∧
    ([("c", some ⟨some ⟨0, some 1⟩, some 1⟩)] : Cache) ≠ ([] : Cache) := by
  constructor
  · simp [ListPodStats, listPodStats, removeTerminatedPods, removeTerminatedContainers,
      firstKeys, getCRICadvisorStats, trivialEnv, runListPodStatsLoop,
      cleanupOutdatedCaches, cleanupKeeps, defaultCachePeriod, List.mergeSort]
  · decide

/-- C1 (amended): the computeRate = false entry point never adds or updates
a cache entry.  When a fetch fails, the cache is returned unchanged;
otherwise the final cache is exactly the pass-end eviction sweep applied to
the initial cache, hence a subset of it — entries can only be removed. -/
theorem listPodStats_readonly_cache_only_evicts (env : Env) (now : Int)
    (rootFsResp : Except String FsInfo)
    (csResp : Except String (List runtimeapi.Container))
    (sandboxResp : Except String (List runtimeapi.PodSandbox))
    (cstsResp : Except String (List runtimeapi.ContainerStats))
    (allInfosResp : Except String CadvisorInfos)
    (netResp : Except String (String → Option NetworkStats))
    (cache : Cache) (res : Except String (List PodStats)) (cache' : Cache)
    (h : ListPodStats env now rootFsResp csResp sandboxResp cstsResp allInfosResp
      netResp cache = some (res, cache')) :
    ((∃ e, res = Except.error e) ∧ cache' = cache) ∨
    (cleanupOutdatedCaches now cache = some cache' ∧ ∀ kv ∈ cache', kv ∈ cache) := by
  rcases rootFsResp with e | rootFs
  · have h0 := Option.some.inj h
    exact Or.inl ⟨⟨_, (congrArg Prod.fst h0).symm⟩, (congrArg Prod.snd h0).symm⟩
  rcases csResp with e | containers
  · have h0 := Option.some.inj h
    exact Or.inl ⟨⟨_, (congrArg Prod.fst h0).symm⟩, (congrArg Prod.snd h0).symm⟩
  rcases sandboxResp with e | items
  · have h0 := Option.some.inj h
    exact Or.inl ⟨⟨_, (congrArg Prod.fst h0).symm⟩, (congrArg Prod.snd h0).symm⟩
  rcases cstsResp with e | csts
  · have h0 := Option.some.inj h
    exact Or.inl ⟨⟨_, (congrArg Prod.fst h0).symm⟩, (congrArg Prod.snd h0).symm⟩
  rcases allInfosResp with e | allInfos
  · have h0 := Option.some.inj h
    exact Or.inl ⟨⟨_, (congrArg Prod.fst h0).symm⟩, (congrArg Prod.snd h0).symm⟩
  rcases netResp with e | net
  · have h0 := Option.some.inj h
    exact Or.inl ⟨⟨_, (congrArg Prod.fst h0).symm⟩, (congrArg Prod.snd h0).symm⟩
  right
  simp only [ListPodStats, listPodStats] at h
  rcases hrun : runListPodStatsLoop env now rootFs
      ((removeTerminatedContainers containers).foldl (fun m c => insertA m c.id c) [])
      ((removeTerminatedPods items).foldl (fun m s => insertA m s.id s) [])
      (getCRICadvisorStats env allInfos) allInfos net false ([], [], cache) csts
      with _ | st1
  · rw [hrun] at h
    cases h
  obtain ⟨m, fsm, cache1⟩ := st1
  have hc1 : cache1 = cache :=
    runLoop_false_cache env now rootFs _ _ _ allInfos net csts ([], [], cache)
      (m, fsm, cache1) hrun
  simp only [hrun] at h
  rcases hcl : cleanupOutdatedCaches now cache1 with _ | cache2
  · simp only [hcl] at h
    cases h
  simp only [hcl] at h
  have h0 := Option.some.inj h
  have hcc : cache2 = cache' := congrArg Prod.snd h0
  subst hcc
  rw [hc1] at hcl
  exact ⟨hcl, cleanup_subset now cache cache2 hcl⟩

/-- Witness for `listPodStats_readonly_cache_only_evicts` at a completed
pass over empty listings with one stale cache entry. -/
theorem listPodStats_readonly_cache_only_evicts_witness :
    (ListPodStats trivialEnv 1000000000000 (Except.ok ⟨0, 0, none, none⟩)
      (Except.ok []) (Except.ok []) (Except.ok []) (Except.ok [])
      (Except.ok (fun _ => none)) [("c", some ⟨some ⟨0, some 1⟩, some 1⟩)] =
      some (Except.ok [], [])) ∧
    (((∃ e, (Except.ok [] : Except String (List PodStats)) = Except.error e) ∧
        ([] : Cache) = [("c", some ⟨some ⟨0, some 1⟩, some 1⟩)]) ∨
      (cleanupOutdatedCaches 1000000000000
          [("c", some ⟨some ⟨0, some 1⟩, some 1⟩)] = some [] ∧
        ∀ kv ∈ ([] : Cache), kv ∈ ([("c", some ⟨some ⟨0, some 1⟩, some 1⟩)] : Cache))) := by
  have hh : ListPodStats trivialEnv 1000000000000 (Except.ok ⟨0, 0, none, none⟩)
      (Except.ok []) (Except.ok []) (Except.ok []) (Except.ok [])
      (Except.ok (fun _ => none)) [("c", some ⟨some ⟨0, some 1⟩, some 1⟩)] =
      some (Except.ok [], []) := by
    simp [ListPodStats, listPodStats, removeTerminatedPods, removeTerminatedContainers,
      firstKeys, getCRICadvisorStats, trivialEnv, runListPodStatsLoop,
      cleanupOutdatedCaches, cleanupKeeps, defaultCachePeriod, List.mergeSort]
  exact ⟨hh, listPodStats_readonly_cache_only_evicts trivialEnv 1000000000000
    (Except.ok ⟨0, 0, none, none⟩) (Except.ok []) (Except.ok []) (Except.ok [])
    (Except.ok []) (Except.ok (fun _ => none))
    [("c", some ⟨some ⟨0, some 1⟩, some 1⟩)] (Except.ok []) [] hh⟩

/-- C8: if any of the upstream fetches fails — the node root filesystem
info, the container listing, the pod-sandbox listing, the per-container
stats listing, or the cadvisor container infos — the snapshot pass returns a
single wrapped error and the untouched cache, never a partial result; the
same holds for the four fetches of the CPU-and-memory pass. -/
theorem fetch_failure_aborts_pass (env : Env) (now : Int)
    (rootFsResp : Except String FsInfo)
    (csResp : Except String (List runtimeapi.Container))
    (sandboxResp : Except String (List runtimeapi.PodSandbox))
    (cstsResp : Except String (List runtimeapi.ContainerStats))
    (allInfosResp : Except String CadvisorInfos)
    (netResp : Except String (String → Option NetworkStats))
    (updateCPUNanoCoreUsage : Bool) (cache : Cache) :
    (((∃ e, rootFsResp = Except.error e) ∨ (∃ e, csResp = Except.error e) ∨
      (∃ e, sandboxResp = Except.error e) ∨ (∃ e, cstsResp = Except.error e) ∨
      (∃ e, allInfosResp = Except.error e)) →
      ∃ e, listPodStats env now rootFsResp csResp sandboxResp cstsResp allInfosResp
        netResp updateCPUNanoCoreUsage cache = some (Except.error e, cache)) ∧
    (((∃ e, csResp = Except.error e) ∨ (∃ e, sandboxResp = Except.error e) ∨
      (∃ e, cstsResp = Except.error e) ∨ (∃ e, allInfosResp = Except.error e)) →
      ∃ e, ListPodCPUAndMemoryStats env now csResp sandboxResp cstsResp allInfosResp
        cache = some (Except.error e, cache)) := by
  constructor
  · intro h
    rcases rootFsResp with e | rootFs
    · exact ⟨_, rfl⟩
    rcases csResp with e | containers
    · exact ⟨_, rfl⟩
    rcases sandboxResp with e | items
    · exact ⟨_, rfl⟩
    rcases cstsResp with e | csts
    · exact ⟨_, rfl⟩
    rcases allInfosResp with e | allInfos
    · exact ⟨_, rfl⟩
    rcases h with ⟨e, he⟩ | ⟨e, he⟩ | ⟨e, he⟩ | ⟨e, he⟩ | ⟨e, he⟩ <;> cases he
  · intro h
    rcases csResp with e | containers
    · exact ⟨_, rfl⟩
    rcases sandboxResp with e | items
    · exact ⟨_, rfl⟩
    rcases cstsResp with e | csts
    · exact ⟨_, rfl⟩
    rcases allInfosResp with e | allInfos
    · exact ⟨_, rfl⟩
    rcases h with ⟨e, he⟩ | ⟨e, he⟩ | ⟨e, he⟩ | ⟨e, he⟩ <;> cases he

/-- Witness for `fetch_failure_aborts_pass`: a failing root-filesystem fetch
aborts the full pass, a failing container listing aborts the CPU-and-memory
pass, each with the cache unchanged. -/
theorem fetch_failure_aborts_pass_witness :
    (∃ e, listPodStats trivialEnv 0 (Except.error "boom") (Except.ok [])
      (Except.ok []) (Except.ok []) (Except.ok []) (Except.ok (fun _ => none))
      false [] = some (Except.error e, [])) ∧
    (∃ e, ListPodCPUAndMemoryStats trivialEnv 0 (Except.error "boom2")
      (Except.ok []) (Except.ok []) (Except.ok []) [] = some (Except.error e, [])) :=
  ⟨(fetch_failure_aborts_pass trivialEnv 0 (Except.error "boom") (Except.ok [])
      (Except.ok []) (Except.ok []) (Except.ok []) (Except.ok (fun _ => none))
      false []).1 (Or.inl ⟨"boom", rfl⟩),
   (fetch_failure_aborts_pass trivialEnv 0 (Except.ok ⟨0, 0, none, none⟩)
      (Except.error "boom2") (Except.ok []) (Except.ok []) (Except.ok [])
      (Except.ok (fun _ => none)) false []).2 (Or.inl ⟨"boom2", rfl⟩)⟩

lemma listPodStatsStep_skips (env : Env) (now : Int) (rootFs : FsInfo)
    (cMap : List (String × runtimeapi.Container))
    (sMap : List (String × runtimeapi.PodSandbox))
    (caInfos allInfos : CadvisorInfos) (net : String → Option NetworkStats)
    (flag : Bool) (bad : runtimeapi.ContainerStats)
    (attrs : runtimeapi.ContainerAttributes) (hattrs : bad.attributes = some attrs)
    (hres : lookupA cMap attrs.id = none ∨
      ∃ container, lookupA cMap attrs.id = some container ∧
        lookupA sMap container.podSandboxId = none) :
    ∀ st, listPodStatsStep env now rootFs cMap sMap caInfos allInfos net flag st bad =
      some st := by
  intro st
  obtain ⟨m, fsMap, cache⟩ := st
  rcases hres with h | ⟨container, hc, hs⟩
  · simp only [listPodStatsStep, hattrs, h]
  · simp only [listPodStatsStep, hattrs, hc, hs]

lemma runLoop_skips (env : Env) (now : Int) (rootFs : FsInfo)
    (cMap : List (String × runtimeapi.Container))
    (sMap : List (String × runtimeapi.PodSandbox))
    (caInfos allInfos : CadvisorInfos) (net : String → Option NetworkStats)
    (flag : Bool) (bad : runtimeapi.ContainerStats)
    (hskip : ∀ st, listPodStatsStep env now rootFs cMap sMap caInfos allInfos net
      flag st bad = some st) :
    ∀ (l1 l2 : List runtimeapi.ContainerStats) (st : LoopState),
      runListPodStatsLoop env now rootFs cMap sMap caInfos allInfos net flag st
        (l1 ++ bad :: l2) =
      runListPodStatsLoop env now rootFs cMap sMap caInfos allInfos net flag st
        (l1 ++ l2)
  | [], l2, st => by
    simp only [List.nil_append, runListPodStatsLoop, hskip st]
  | s :: l1, l2, st => by
    simp only [List.cons_append, runListPodStatsLoop]
    rcases hs : listPodStatsStep env now rootFs cMap sMap caInfos allInfos net flag st s
        with _ | st1
    · rfl
    · exact runLoop_skips env now rootFs cMap sMap caInfos allInfos net flag bad
        hskip l1 l2 st1

/-- C9: a stat record whose container id is absent from the deduplicated
container map, or whose container references a sandbox id absent from the
sandbox map, contributes nothing: the pass produces exactly the output it
would produce without that record, and in particular still succeeds whenever
the rest of the pass succeeds. -/
theorem unresolvable_stat_record_skipped (env : Env) (now : Int) (rootFs : FsInfo)
    (containers : List runtimeapi.Container) (items : List runtimeapi.PodSandbox)
    (l1 l2 : List runtimeapi.ContainerStats) (bad : runtimeapi.ContainerStats)
    (allInfos : CadvisorInfos) (net : String → Option NetworkStats)
    (updateCPUNanoCoreUsage : Bool) (cache : Cache)
    (attrs : runtimeapi.ContainerAttributes) (hattrs : bad.attributes = some attrs)
    (hres : lookupA ((removeTerminatedContainers containers).foldl
        (fun m c => insertA m c.id c) []) attrs.id = none ∨
      ∃ container, lookupA ((removeTerminatedContainers containers).foldl
          (fun m c => insertA m c.id c) []) attrs.id = some container ∧
        lookupA ((removeTerminatedPods items).foldl
          (fun m s => insertA m s.id s) []) container.podSandboxId = none) :
    listPodStats env now (Except.ok rootFs) (Except.ok containers) (Except.ok items)
        (Except.ok (l1 ++ bad :: l2)) (Except.ok allInfos) (Except.ok net)
        updateCPUNanoCoreUsage cache =
      listPodStats env now (Except.ok rootFs) (Except.ok containers) (Except.ok items)
        (Except.ok (l1 ++ l2)) (Except.ok allInfos) (Except.ok net)
        updateCPUNanoCoreUsage cache ∧
    ∀ (r : List PodStats) (cache' : Cache),
      listPodStats env now (Except.ok rootFs) (Except.ok containers) (Except.ok items)
        (Except.ok (l1 ++ l2)) (Except.ok allInfos) (Except.ok net)
        updateCPUNanoCoreUsage cache = some (Except.ok r, cache') →
      listPodStats env now (Except.ok rootFs) (Except.ok containers) (Except.ok items)
        (Except.ok (l1 ++ bad :: l2)) (Except.ok allInfos) (Except.ok net)
        updateCPUNanoCoreUsage cache = some (Except.ok r, cache') := by
  have hskip := listPodStatsStep_skips env now rootFs
    ((removeTerminatedContainers containers).foldl (fun m c => insertA m c.id c) [])
    ((removeTerminatedPods items).foldl (fun m s => insertA m s.id s) [])
    (getCRICadvisorStats env allInfos) allInfos net updateCPUNanoCoreUsage bad
    attrs hattrs hres
  have hloop := runLoop_skips env now rootFs
    ((removeTerminatedContainers containers).foldl (fun m c => insertA m c.id c) [])
    ((removeTerminatedPods items).foldl (fun m s => insertA m s.id s) [])
    (getCRICadvisorStats env allInfos) allInfos net updateCPUNanoCoreUsage bad
    hskip l1 l2 ([], [], cache)
  constructor
  · simp only [listPodStats]
    rw [hloop]
  · intro r cache' h
    simp only [listPodStats] at h ⊢
    rw [hloop]
    exact h

/-- Witness for `unresolvable_stat_record_skipped`: a stat record for an id
absent from an empty container map is skipped. -/
theorem unresolvable_stat_record_skipped_witness :
    ((⟨some ⟨"x", ⟨"n"⟩⟩, none, none, none⟩ :
        runtimeapi.ContainerStats).attributes = some ⟨"x", ⟨"n"⟩⟩) ∧
    (lookupA ((removeTerminatedContainers []).foldl
      (fun m c => insertA m c.id c) []) ("x" : String) = none) ∧
    (listPodStats trivialEnv 0 (Except.ok ⟨0, 0, none, none⟩) (Except.ok [])
        (Except.ok []) (Except.ok ([] ++ ⟨some ⟨"x", ⟨"n"⟩⟩, none, none, none⟩ :: []))
        (Except.ok []) (Except.ok (fun _ => none)) false [] =
      listPodStats trivialEnv 0 (Except.ok ⟨0, 0, none, none⟩) (Except.ok [])
        (Except.ok []) (Except.ok ([] ++ [])) (Except.ok [])
        (Except.ok (fun _ => none)) false []) := by
  have h2 : lookupA ((removeTerminatedContainers []).foldl
      (fun m c => insertA m c.id c) []) ("x" : String) = none := by
    simp [removeTerminatedContainers, firstKeys, List.mergeSort, lookupA]
  exact ⟨rfl, h2,
    (unresolvable_stat_record_skipped trivialEnv 0 ⟨0, 0, none, none⟩ [] [] [] []
      ⟨some ⟨"x", ⟨"n"⟩⟩, none, none, none⟩ [] (fun _ => none) false []
      ⟨"x", ⟨"n"⟩⟩ rfl (Or.inl h2)).1⟩
